import Mathlib

/-!
Verification of the `create-rmv-project` CLI (`bin/cli.js`) against its
specification. The script is a linear sequence of awaited external steps
(git clone, file-system writes, npm/npx invocations, git commit) wrapped in
one `try`/`catch`/`finally`. We embed it shallowly:

* strings are `List Char`; the two `String.replace` calls on
  `tailwind.config.js` (with the regexes `content:\s*\[\s*\]` and
  `plugins:\s*\[\s*\]`, global flag) are modelled by an executable
  left-to-right scanner with the same deterministic matching, since the
  regexes' `\s*` parts cannot backtrack usefully (`\s`, `[` and `]` are
  disjoint character sets);
* the step sequence is an interpreter over an abstract environment `Env`
  recording which awaited operation rejects, what the cloned template
  provides, and what the one external `tailwindcss init` produces;
* the Node runtime at top level: `setupProject()` is called with no
  rejection handler (line 253), so a rejection thrown before the `try`
  block (lines 50-84: clone, `.git` removal, `git init`, manifest
  creation, `chdir`) is an unhandled promise rejection, which Node
  (v15+) reports and exits with code 1 without running the script's
  `catch`/`finally`; a rejection inside the `try` runs the `catch`
  (log, chdir back, best-effort `fs.remove`, `process.exit(1)`).
-/

/-! ### JS regex-replace machinery (cli.js lines 128-148) -/

/-- JS `\s` whitespace class (the members that can occur in config files). -/
def isWs (c : Char) : Bool :=
  c = ' ' || c = '\t' || c = '\n' || c = '\r' || c = '\x0b' || c = '\x0c' ||
  c = '\u00a0' || c = '\ufeff'

/-- Boolean list-prefix test (`p` begins `s`). -/
def isPfx : List Char → List Char → Bool
  | [], _ => true
  | _ :: _, [] => false
  | a :: p, b :: s => a == b && isPfx p s

/-- Boolean list-suffix test (`q` ends `s`). -/
def isSfx (q s : List Char) : Bool := isPfx q.reverse s.reverse

/-- Remove the literal `key` from the front of `s`, if it is there. -/
def stripPfx (key s : List Char) : Option (List Char) :=
  if isPfx key s then some (s.drop key.length) else none

/-- Consume the maximal run of `\s` characters. -/
def dropWs (s : List Char) : List Char := s.dropWhile isWs

/-- Match the regex `key\s*\[\s*\]` at the head of `s`; on success return
what follows the match.  Greedy `\s*` is deterministic here because `\s`,
`[` and `]` are disjoint. -/
def tryMatch (key s : List Char) : Option (List Char) :=
  match stripPfx key s with
  | none => none
  | some r1 =>
    match dropWs r1 with
    | '[' :: r3 =>
      match dropWs r3 with
      | ']' :: r5 => some r5
      | _ => none
    | _ => none

/-- A successful match consumes at least the two brackets. -/
def tryMatch_len {key s rem : List Char} (h : tryMatch key s = some rem) :
    rem.length < s.length := by
  unfold tryMatch at h
  cases hsp : stripPfx key s with
  | none => rw [hsp] at h; cases h
  | some r1 =>
    rw [hsp] at h
    simp only [] at h
    have hr1 : r1.length ≤ s.length := by
      unfold stripPfx at hsp
      split at hsp
      · cases hsp; simp
      · cases hsp
    have hd1 : (dropWs r1).length ≤ r1.length := by
      unfold dropWs
      exact (List.dropWhile_sublist (l := r1) (p := isWs)).length_le
    split at h
    · rename_i r3 heq1
      have hd2 : (dropWs r3).length ≤ r3.length := by
        unfold dropWs
        exact (List.dropWhile_sublist (l := r3) (p := isWs)).length_le
      split at h
      · rename_i r5 heq2
        injection h with h
        subst h
        rw [heq1] at hd1
        rw [heq2] at hd2
        simp at hd1 hd2
        omega
      · cases h
    · cases h

/-- The left-to-right scan of JS `s.replace(/key\s*\[\s*\]/g, repl)`,
character by character.  The `Nat` argument counts characters still inside
the most recent match: while it is positive the scanner only skips, so the
scan resumes exactly at the end of each match, as the JS engine does; the
matched text is dropped and `repl` emitted in its place, and the
replacement text is never rescanned. -/
def replaceAllGo (key repl : List Char) : Nat → List Char → List Char
  | _, [] => []
  | k + 1, _ :: rest => replaceAllGo key repl k rest
  | 0, c :: rest =>
    match tryMatch key (c :: rest) with
    | some rem => repl ++ replaceAllGo key repl (rest.length - rem.length) rest
    | none => c :: replaceAllGo key repl 0 rest

/-- JS `s.replace(/key\s*\[\s*\]/g, repl)`. -/
def replaceAll (key repl : List Char) (s : List Char) : List Char :=
  replaceAllGo key repl 0 s

/-- Scan counting matches instead of substituting (same skip discipline). -/
def countMatchesGo (key : List Char) : Nat → List Char → Nat
  | _, [] => 0
  | k + 1, _ :: rest => countMatchesGo key k rest
  | 0, c :: rest =>
    match tryMatch key (c :: rest) with
    | some rem => 1 + countMatchesGo key (rest.length - rem.length) rest
    | none => countMatchesGo key 0 rest

/-- Number of (non-overlapping, left-to-right) matches of `key\s*\[\s*\]`,
i.e. how many replacements the JS call performs. -/
def countMatches (key : List Char) (s : List Char) : Nat :=
  countMatchesGo key 0 s

/-- Number of positions at which the plain string `pat` occurs in `s`
(occurrences may overlap). -/
def countOcc (pat : List Char) : List Char → Nat
  | [] => 0
  | c :: rest => (if isPfx pat (c :: rest) then 1 else 0) + countOcc pat rest

/-- No match of `key\s*\[\s*\]` starts anywhere in `u`. -/
def noMatchIn (key u : List Char) : Prop :=
  ∀ v, v <:+ u → tryMatch key v = none

/-- Scanning `u` followed by the fixed continuation `t`, no match of
`key\s*\[\s*\]` starts at a position inside `u`. -/
def noScanHit (key t u : List Char) : Prop :=
  ∀ v, v <:+ u → v ≠ [] → tryMatch key (v ++ t) = none

/-- The bracket part `\s*\[\s*\]` fails on `v` at an actual character (not by
running out of input), whatever is appended after `v`. -/
def wsDead (v : List Char) : Bool :=
  match dropWs v with
  | [] => false
  | '[' :: r =>
    match dropWs r with
    | [] => false
    | ']' :: _ => false
    | _ :: _ => true
  | _ :: _ => true

/-- The whole regex `key\s*\[\s*\]` fails on `v` at an actual character:
then no extension of `v` can match at this position. -/
def deadAt (key v : List Char) : Bool :=
  match key, v with
  | [], v => wsDead v
  | _ :: _, [] => false
  | k :: ks, c :: v' => if k == c then deadAt ks v' else true

/-- Every nonempty suffix of `R` is dead for `key` (no match of the regex can
start inside `R`, whatever follows `R`). -/
def deadTails (key R : List Char) : Bool :=
  (List.range R.length).all fun i => deadAt key (R.drop i)

/-- No proper nonempty suffix of `pat` is a prefix of `R`: an occurrence of
`pat` cannot end inside `R` having started before it. -/
def noTailPfxIn (pat R : List Char) : Bool :=
  (List.range pat.length).all fun j => j = 0 || !(isPfx (pat.drop j) R)

/-- No proper nonempty prefix of `pat` is a suffix of `R`: an occurrence of
`pat` cannot start inside `R` and end after it. -/
def noHeadSfxIn (pat R : List Char) : Bool :=
  (List.range pat.length).all fun j => j = 0 || !(isSfx (pat.take j) R)

/-- The consumed text of a regex match: `key`, whitespace, `[`, whitespace,
`]`. -/
def mtch (key w1 w2 : List Char) : List Char := key ++ w1 ++ '[' :: (w2 ++ [']'])

/-- Every character of `w` is `\s` whitespace. -/
def allWs (w : List Char) : Bool := w.all isWs

/-- `ch` can appear at no point of a partial match of `key\s*\[\s*\]`: on
seeing `ch` the regex engine fails at that position. -/
def BlockFor (ch : Char) (key : List Char) : Prop :=
  ch ∉ key ∧ isWs ch = false ∧ ch ≠ '[' ∧ ch ≠ ']'

/-- `tailwindCssContent.trim()` (lines 105-110, 120): the generated
`assets/css/processing.css`. -/
def processingCssText : List Char :=
  "@import \"tailwindcss\";\n\n/* Fancybox styles */\n@import \"@fancyapps/ui/dist/fancybox/fancybox.css\";".toList

/-- `jsContent.trim()` (lines 168-182, 189): the generated `assets/js/main.js`. -/
def mainJsText : List Char :=
  "import jQuery from 'jquery';\nimport \x7b Fancybox \x7d from \"@fancyapps/ui\";\n\nwindow.$ = window.jQuery = jQuery;\n\n// Initialize Fancybox\nFancybox.bind(\"[data-fancybox]\", \x7b\n  // Your custom options here\n\x7d);\n\nconsole.log('jQuery and Fancybox initialized.');\n\n// Your custom JavaScript code here".toList

/-! ### The concrete strings of cli.js -/

/-- The literal part of the first regex (line 132). -/
def key1 : List Char := "content:".toList

/-- The literal part of the second regex (line 142). -/
def key2 : List Char := "plugins:".toList

/-- First content glob inserted by the patch (line 134). -/
def glob1 : List Char := "'./site/**/*.php'".toList

/-- Second content glob (line 135). -/
def glob2 : List Char := "'./site/**/*.js'".toList

/-- Third content glob (line 136). -/
def glob3 : List Char := "'./content/**/*.txt'".toList

/-- The typography plugin registration inserted by the patch (line 144). -/
def typoReq : List Char := "require('@tailwindcss/typography')".toList

/-- Replacement text of the first `replace` call (lines 133-137). -/
def contentRepl : List Char :=
  "content: [\n    './site/**/*.php',\n    './site/**/*.js',\n    './content/**/*.txt'\n  ]".toList

/-- Replacement text of the second `replace` call (lines 143-145). -/
def pluginsRepl : List Char :=
  "plugins: [\n    require('@tailwindcss/typography'),\n  ]".toList

/-- The whole `tailwind.config.js` patch (lines 128-148): first the content
replacement, then the plugins replacement on the result. -/
def patchTailwind (s : List Char) : List Char :=
  replaceAll key2 pluginsRepl (replaceAll key1 contentRepl s)

/-! ### The setup sequence (setupProject, cli.js lines 38-253) -/

/-- The awaited operations of `setupProject`, one per `await` site (the three
final git calls are separate awaits on lines 200-202).  `patchConfig` covers
the read-patch-write block guarded by `fs.pathExists` (lines 127-152). -/
inductive Op where
  | clone
  | removeGit
  | gitInit
  | ensureManifest
  | npmInstall
  | npxInit
  | writeCss
  | patchConfig
  | updateScripts
  | writeJs
  | runBuild
  | gitAdd
  | gitCommit
  | gitBranch
deriving DecidableEq, Fintype, Repr

/-- Position of each operation in the program text. -/
def opIdx : Op → Nat
  | .clone => 0
  | .removeGit => 1
  | .gitInit => 2
  | .ensureManifest => 3
  | .npmInstall => 4
  | .npxInit => 5
  | .writeCss => 6
  | .patchConfig => 7
  | .updateScripts => 8
  | .writeJs => 9
  | .runBuild => 10
  | .gitAdd => 11
  | .gitCommit => 12
  | .gitBranch => 13

/-- A `package.json`: the `scripts` map and, abstractly, every other
top-level field (name, version, private, dependencies, ...). -/
structure PkgJson where
  scripts : String → Option String
  fields : String → Option String

/-- The manifest written when the template has none (lines 73-78). -/
def defaultPkg (n : String) : PkgJson where
  scripts := fun _ => none
  fields := fun k =>
    if k = "name" then some n
    else if k = "version" then some "1.0.0"
    else if k = "private" then some "true"
    else none

/-- The `build` script recorded on line 161. -/
def buildCmd : String :=
  "npx @tailwindcss/cli -i ./assets/css/processing.css -o ./assets/css/tailwind.css --minify"

/-- The `watch` script recorded on line 162. -/
def watchCmd : String :=
  "npx @tailwindcss/cli -i ./assets/css/processing.css -o ./assets/css/tailwind.css --watch"

/-- Lines 158-163: `packageJson.scripts = { ...packageJson.scripts, build,
watch }` — spread keeps every other script, the two named ones are set. -/
def setScripts (p : PkgJson) : PkgJson :=
  { p with
    scripts := fun k =>
      if k = "build" then some buildCmd
      else if k = "watch" then some watchCmd
      else p.scripts k }

/-- The `.git` directory of the target, when present. -/
structure GitDir where
  fromTemplate : Bool
  staged : Bool
  committed : Bool
  branchMain : Bool
deriving Repr

/-- The target directory's contents, restricted to what the program touches. -/
structure TargetDir where
  gitDir : Option GitDir
  pkg : Option PkgJson
  twConfig : Option (List Char)
  processingCss : Option (List Char)
  mainJs : Option (List Char)
  depsInstalled : Bool
  builtCss : Bool

/-- The run's environment: the initial file system and the behaviour of every
external collaborator (network, git, npm, npx, fs). -/
structure Env where
  origCwd : List String
  preTarget : Option TargetDir
  templatePkg : Option PkgJson
  npxCreatesConfig : Bool
  initConfigText : List Char
  fails : Op → Bool
  cleanupFails : Bool

/-- Mutable process state threaded through the steps. -/
structure St where
  cwd : List String
  target : Option TargetDir
  trace : List Op
  warned : Bool

/-- What the run left behind when the process terminated. -/
structure Outcome where
  exitCode : Nat
  target : Option TargetDir
  finalCwd : List String
  targetPath : List String
  trace : List Op
  errLogged : Bool
  warned : Bool

/-- A cloned copy of the Kirby Plainkit template (line 52): it brings its own
`.git` history and whatever manifest the template ships. -/
def freshClone (env : Env) : TargetDir where
  gitDir := some { fromTemplate := true, staged := false, committed := false, branchMain := false }
  pkg := env.templatePkg
  twConfig := none
  processingCss := none
  mainJs := none
  depsInstalled := false
  builtCss := false

/-- Apply `f` to the target directory if it exists. -/
def onTarget (f : TargetDir → TargetDir) (st : St) : St :=
  { st with target := st.target.map f }

/-- One awaited step: record the attempt, then either reject (per the
environment) or apply its file-system effect. -/
def stepRun (env : Env) (op : Op) (eff : St → St) (st : St) : Except St St :=
  let st' := { st with trace := st.trace ++ [op] }
  if env.fails op then .error st' else .ok (eff st')

/-- Line 52, `simpleGit().clone(url, projectDir)`: git refuses an existing
non-empty destination; a failed clone leaves no directory behind. -/
def cloneStep (env : Env) (st : St) : Except St St :=
  let st' := { st with trace := st.trace ++ [Op.clone] }
  if st.target.isSome || env.fails .clone then .error st'
  else .ok { st' with target := some (freshClone env) }

/-- Line 127-152: patch `tailwind.config.js` when it exists, otherwise print
the warning and continue. -/
def patchEff (st : St) : St :=
  match st.target with
  | none => st
  | some t =>
    match t.twConfig with
    | some txt => { st with target := some { t with twConfig := some (patchTailwind txt) } }
    | none => { st with warned := true }

/-- Lines 50-85: the statements before the `try` block — clone, strip the
template's `.git`, `git init`, create `package.json` if missing, then
`process.chdir(projectDir)`.  A rejection here escapes `setupProject`. -/
def phase1 (env : Env) (n : String) (st : St) : Except St St := do
  let st ← cloneStep env st
  let st ← stepRun env .removeGit
    (onTarget fun t => { t with gitDir := none }) st
  let st ← stepRun env .gitInit
    (onTarget fun t =>
      { t with gitDir := some (t.gitDir.getD
          { fromTemplate := false, staged := false, committed := false, branchMain := false }) }) st
  let st ← stepRun env .ensureManifest
    (onTarget fun t => { t with pkg := some (t.pkg.getD (defaultPkg n)) }) st
  pure { st with cwd := env.origCwd ++ [n] }

/-- Lines 87-235: the body of the `try` block, in program order.  Note that
`main.js` is written (line 189) after the config patch (line 148) and the
scripts update (line 164). -/
def tryBody (env : Env) (st : St) : Except St St := do
  let st ← stepRun env .npmInstall
    (onTarget fun t => { t with depsInstalled := true }) st
  let st ← stepRun env .npxInit
    (onTarget fun t =>
      { t with twConfig := if env.npxCreatesConfig then some env.initConfigText else t.twConfig }) st
  let st ← stepRun env .writeCss
    (onTarget fun t => { t with processingCss := some processingCssText }) st
  let st ← stepRun env .patchConfig patchEff st
  let st ← stepRun env .updateScripts
    (onTarget fun t => { t with pkg := t.pkg.map setScripts }) st
  let st ← stepRun env .writeJs
    (onTarget fun t => { t with mainJs := some mainJsText }) st
  let st ← stepRun env .runBuild
    (onTarget fun t => { t with builtCss := true }) st
  let st ← stepRun env .gitAdd
    (onTarget fun t => { t with gitDir := t.gitDir.map fun g => { g with staged := true } }) st
  let st ← stepRun env .gitCommit
    (onTarget fun t => { t with gitDir := t.gitDir.map fun g => { g with committed := true } }) st
  stepRun env .gitBranch
    (onTarget fun t => { t with gitDir := t.gitDir.map fun g => { g with branchMain := true } }) st

/-- Process state at `setupProject()`'s first statement. -/
def startSt (env : Env) : St where
  cwd := env.origCwd
  target := env.preTarget
  trace := []
  warned := false

/-- The whole process run for project name `n`: `setupProject()` at top level
with Node's unhandled-rejection exit.  A `phase1` rejection terminates the
process with code 1, no cleanup, no catch logging; a `tryBody` rejection runs
the catch block (console.error, chdir back, best-effort `fs.remove`,
`process.exit(1)`); success drains the event loop, exit code 0, after the
`finally` block restored the working directory. -/
def runCli (env : Env) (n : String) : Outcome :=
  match phase1 env n (startSt env) with
  | .error st =>
    { exitCode := 1, target := st.target, finalCwd := st.cwd,
      targetPath := env.origCwd ++ [n], trace := st.trace,
      errLogged := false, warned := st.warned }
  | .ok st =>
    match tryBody env st with
    | .ok st' =>
      { exitCode := 0, target := st'.target, finalCwd := env.origCwd,
        targetPath := env.origCwd ++ [n], trace := st'.trace,
        errLogged := false, warned := st'.warned }
    | .error st' =>
      { exitCode := 1,
        target := if env.cleanupFails then st'.target else none,
        finalCwd := env.origCwd,
        targetPath := env.origCwd ++ [n], trace := st'.trace,
        errLogged := true, warned := st'.warned }

/-- Commander option `-n, --name <name>` with default `my-rmv-project`
(line 19), for the invocation shapes the claims exercise: no flag, or one
`-n value` / `--name value` pair. -/
def parseName : List String → String
  | [] => "my-rmv-project"
  | a :: rest =>
    if a = "-n" || a = "--name" then
      match rest with
      | v :: _ => v
      | [] => "my-rmv-project"
    else parseName rest

/-- The run as invoked from the command line. -/
def runCliArgv (env : Env) (argv : List String) : Outcome :=
  runCli env (parseName argv)

/-- The trace of a fully successful run, in program order. -/
def programTrace : List Op :=
  [.clone, .removeGit, .gitInit, .ensureManifest, .npmInstall, .npxInit,
   .writeCss, .patchConfig, .updateScripts, .writeJs, .runBuild,
   .gitAdd, .gitCommit, .gitBranch]

/-- Modelled from the spec (claim C8's order): both generated source files
written at step (7), before the configuration patch (8) and the scripts
update (9). -/
def claimedTrace : List Op :=
  [.clone, .removeGit, .gitInit, .ensureManifest, .npmInstall, .npxInit,
   .writeCss, .writeJs, .patchConfig, .updateScripts, .runBuild,
   .gitAdd, .gitCommit, .gitBranch]

/-- All awaited operations succeed and the target path is free: the premise
of a fully successful run. -/
def allOk (env : Env) : Prop :=
  (∀ op, env.fails op = false) ∧ env.preTarget = none

/-! ### Reference states: the target directory after each successful step -/

/-- Target directory after the template's `.git` was removed. -/
def tdAfterRmGit (env : Env) : TargetDir :=
  { freshClone env with gitDir := none }

/-- ... after `git init`. -/
def tdAfterInit (env : Env) : TargetDir :=
  { tdAfterRmGit env with
    gitDir := some { fromTemplate := false, staged := false, committed := false, branchMain := false } }

/-- ... after the manifest was ensured to exist. -/
def tdAfterManifest (env : Env) (n : String) : TargetDir :=
  { tdAfterInit env with pkg := some (env.templatePkg.getD (defaultPkg n)) }

/-- ... after `npm install`. -/
def tdAfterInstall (env : Env) (n : String) : TargetDir :=
  { tdAfterManifest env n with depsInstalled := true }

/-- ... after `npx @tailwindcss/cli init`. -/
def tdAfterNpx (env : Env) (n : String) : TargetDir :=
  { tdAfterInstall env n with
    twConfig := if env.npxCreatesConfig = true then some env.initConfigText else none }

/-- ... after `processing.css` was written. -/
def tdAfterCss (env : Env) (n : String) : TargetDir :=
  { tdAfterNpx env n with processingCss := some processingCssText }

/-- ... after the config patch step (patched when the config exists,
untouched otherwise). -/
def tdAfterPatch (env : Env) (n : String) : TargetDir :=
  { tdAfterCss env n with
    twConfig := if env.npxCreatesConfig = true then some (patchTailwind env.initConfigText) else none }

/-- ... after the `build`/`watch` scripts were recorded. -/
def tdAfterScripts (env : Env) (n : String) : TargetDir :=
  { tdAfterPatch env n with
    pkg := some (setScripts (env.templatePkg.getD (defaultPkg n))) }

/-- ... after `main.js` was written. -/
def tdAfterJs (env : Env) (n : String) : TargetDir :=
  { tdAfterScripts env n with mainJs := some mainJsText }

/-- ... after the initial build. -/
def tdAfterBuild (env : Env) (n : String) : TargetDir :=
  { tdAfterJs env n with builtCss := true }

/-- ... after `git add .`. -/
def tdAfterAdd (env : Env) (n : String) : TargetDir :=
  { tdAfterBuild env n with
    gitDir := some { fromTemplate := false, staged := true, committed := false, branchMain := false } }

/-- ... after `git commit`. -/
def tdAfterCommit (env : Env) (n : String) : TargetDir :=
  { tdAfterAdd env n with
    gitDir := some { fromTemplate := false, staged := true, committed := true, branchMain := false } }

/-- ... after `git branch -M main`: the fully built project. -/
def tdFinal (env : Env) (n : String) : TargetDir :=
  { tdAfterCommit env n with
    gitDir := some { fromTemplate := false, staged := true, committed := true, branchMain := true } }

/-! ### Concrete sample environments (used by witnesses and counterexamples) -/

/-- A run in which every external operation succeeds. -/
def envAllOk : Env where
  origCwd := []
  preTarget := none
  templatePkg := none
  npxCreatesConfig := true
  initConfigText := "module.exports = \x7b\n  content: [],\n  plugins: [],\n\x7d".toList
  fails := fun _ => false
  cleanupFails := false

/-- A run whose only rejecting operation is `op`. -/
def envFailAt (op : Op) : Env :=
  { envAllOk with fails := fun o => decide (o = op) }

/-- A run in which `npx @tailwindcss/cli init` succeeds but produces no
`tailwind.config.js` (as Tailwind v4's CLI does). -/
def envNoCfg : Env :=
  { envAllOk with npxCreatesConfig := false }

/-- A second run at a path already holding a fully built project. -/
def envPreOccupied : Env :=
  { envAllOk with preTarget := some (tdFinal envAllOk "proj") }

/-! ### Evaluation lemmas: the outcome of a run whose first failure is known -/

/-- The target path is already occupied: the clone is refused at once. -/
lemma eval_preSome (env : Env) (n : String) (td0 : TargetDir)
    (hpre : env.preTarget = some td0) :
    runCli env n =
      { exitCode := 1,
        target := some td0,
        finalCwd := env.origCwd,
        targetPath := env.origCwd ++ [n],
        trace := [.clone],
        errLogged := false,
        warned := false } := by
  simp [runCli, phase1, cloneStep, startSt, bind, Except.bind, hpre]

/-- Outcome when `clone` is the first operation to fail. -/
lemma eval_fail_clone (env : Env) (n : String)
    (hpre : env.preTarget = none)
    (hf : env.fails .clone = true) :
    runCli env n =
      { exitCode := 1,
        target := none,
        finalCwd := env.origCwd,
        targetPath := env.origCwd ++ [n],
        trace := [.clone],
        errLogged := false,
        warned := false } := by
  simp [runCli, phase1, tryBody, cloneStep, stepRun, startSt, onTarget, patchEff,
      bind, Except.bind, Functor.map, Except.map, pure, Except.pure, Function.comp,
      freshClone, tdAfterRmGit, tdAfterInit, tdAfterManifest, tdAfterInstall,
      tdAfterNpx, tdAfterCss, tdAfterPatch, tdAfterScripts, tdAfterJs,
      tdAfterBuild, tdAfterAdd, tdAfterCommit, tdFinal,
      hpre, hf]

/-- Outcome when `removeGit` is the first operation to fail. -/
lemma eval_fail_removeGit (env : Env) (n : String)
    (hpre : env.preTarget = none)
    (hf0 : env.fails .clone = false)
    (hf : env.fails .removeGit = true) :
    runCli env n =
      { exitCode := 1,
        target := some (freshClone env),
        finalCwd := env.origCwd,
        targetPath := env.origCwd ++ [n],
        trace := [.clone, .removeGit],
        errLogged := false,
        warned := false } := by
  simp [runCli, phase1, tryBody, cloneStep, stepRun, startSt, onTarget, patchEff,
      bind, Except.bind, Functor.map, Except.map, pure, Except.pure, Function.comp,
      freshClone, tdAfterRmGit, tdAfterInit, tdAfterManifest, tdAfterInstall,
      tdAfterNpx, tdAfterCss, tdAfterPatch, tdAfterScripts, tdAfterJs,
      tdAfterBuild, tdAfterAdd, tdAfterCommit, tdFinal,
      hpre, hf0, hf]

/-- Outcome when `gitInit` is the first operation to fail. -/
lemma eval_fail_gitInit (env : Env) (n : String)
    (hpre : env.preTarget = none)
    (hf0 : env.fails .clone = false)
    (hf1 : env.fails .removeGit = false)
    (hf : env.fails .gitInit = true) :
    runCli env n =
      { exitCode := 1,
        target := some (tdAfterRmGit env),
        finalCwd := env.origCwd,
        targetPath := env.origCwd ++ [n],
        trace := [.clone, .removeGit, .gitInit],
        errLogged := false,
        warned := false } := by
  simp [runCli, phase1, tryBody, cloneStep, stepRun, startSt, onTarget, patchEff,
      bind, Except.bind, Functor.map, Except.map, pure, Except.pure, Function.comp,
      freshClone, tdAfterRmGit, tdAfterInit, tdAfterManifest, tdAfterInstall,
      tdAfterNpx, tdAfterCss, tdAfterPatch, tdAfterScripts, tdAfterJs,
      tdAfterBuild, tdAfterAdd, tdAfterCommit, tdFinal,
      hpre, hf0, hf1, hf]

/-- Outcome when `ensureManifest` is the first operation to fail. -/
lemma eval_fail_ensureManifest (env : Env) (n : String)
    (hpre : env.preTarget = none)
    (hf0 : env.fails .clone = false)
    (hf1 : env.fails .removeGit = false)
    (hf2 : env.fails .gitInit = false)
    (hf : env.fails .ensureManifest = true) :
    runCli env n =
      { exitCode := 1,
        target := some (tdAfterInit env),
        finalCwd := env.origCwd,
        targetPath := env.origCwd ++ [n],
        trace := [.clone, .removeGit, .gitInit, .ensureManifest],
        errLogged := false,
        warned := false } := by
  simp [runCli, phase1, tryBody, cloneStep, stepRun, startSt, onTarget, patchEff,
      bind, Except.bind, Functor.map, Except.map, pure, Except.pure, Function.comp,
      freshClone, tdAfterRmGit, tdAfterInit, tdAfterManifest, tdAfterInstall,
      tdAfterNpx, tdAfterCss, tdAfterPatch, tdAfterScripts, tdAfterJs,
      tdAfterBuild, tdAfterAdd, tdAfterCommit, tdFinal,
      hpre, hf0, hf1, hf2, hf]

/-- Outcome when `npmInstall` is the first operation to fail. -/
lemma eval_fail_npmInstall (env : Env) (n : String)
    (hpre : env.preTarget = none)
    (hf0 : env.fails .clone = false)
    (hf1 : env.fails .removeGit = false)
    (hf2 : env.fails .gitInit = false)
    (hf3 : env.fails .ensureManifest = false)
    (hf : env.fails .npmInstall = true) :
    runCli env n =
      { exitCode := 1,
        target := if env.cleanupFails = true then some (tdAfterManifest env n) else none,
        finalCwd := env.origCwd,
        targetPath := env.origCwd ++ [n],
        trace := [.clone, .removeGit, .gitInit, .ensureManifest, .npmInstall],
        errLogged := true,
        warned := false } := by
  simp [runCli, phase1, tryBody, cloneStep, stepRun, startSt, onTarget, patchEff,
      bind, Except.bind, Functor.map, Except.map, pure, Except.pure, Function.comp,
      freshClone, tdAfterRmGit, tdAfterInit, tdAfterManifest, tdAfterInstall,
      tdAfterNpx, tdAfterCss, tdAfterPatch, tdAfterScripts, tdAfterJs,
      tdAfterBuild, tdAfterAdd, tdAfterCommit, tdFinal,
      hpre, hf0, hf1, hf2, hf3, hf]

/-- Outcome when `npxInit` is the first operation to fail. -/
lemma eval_fail_npxInit (env : Env) (n : String)
    (hpre : env.preTarget = none)
    (hf0 : env.fails .clone = false)
    (hf1 : env.fails .removeGit = false)
    (hf2 : env.fails .gitInit = false)
    (hf3 : env.fails .ensureManifest = false)
    (hf4 : env.fails .npmInstall = false)
    (hf : env.fails .npxInit = true) :
    runCli env n =
      { exitCode := 1,
        target := if env.cleanupFails = true then some (tdAfterInstall env n) else none,
        finalCwd := env.origCwd,
        targetPath := env.origCwd ++ [n],
        trace := [.clone, .removeGit, .gitInit, .ensureManifest, .npmInstall, .npxInit],
        errLogged := true,
        warned := false } := by
  simp [runCli, phase1, tryBody, cloneStep, stepRun, startSt, onTarget, patchEff,
      bind, Except.bind, Functor.map, Except.map, pure, Except.pure, Function.comp,
      freshClone, tdAfterRmGit, tdAfterInit, tdAfterManifest, tdAfterInstall,
      tdAfterNpx, tdAfterCss, tdAfterPatch, tdAfterScripts, tdAfterJs,
      tdAfterBuild, tdAfterAdd, tdAfterCommit, tdFinal,
      hpre, hf0, hf1, hf2, hf3, hf4, hf]

/-- Outcome when `writeCss` is the first operation to fail. -/
lemma eval_fail_writeCss (env : Env) (n : String)
    (hpre : env.preTarget = none)
    (hf0 : env.fails .clone = false)
    (hf1 : env.fails .removeGit = false)
    (hf2 : env.fails .gitInit = false)
    (hf3 : env.fails .ensureManifest = false)
    (hf4 : env.fails .npmInstall = false)
    (hf5 : env.fails .npxInit = false)
    (hf : env.fails .writeCss = true) :
    runCli env n =
      { exitCode := 1,
        target := if env.cleanupFails = true then some (tdAfterNpx env n) else none,
        finalCwd := env.origCwd,
        targetPath := env.origCwd ++ [n],
        trace := [.clone, .removeGit, .gitInit, .ensureManifest, .npmInstall, .npxInit, .writeCss],
        errLogged := true,
        warned := false } := by
  cases hnc : env.npxCreatesConfig <;>
    simp [runCli, phase1, tryBody, cloneStep, stepRun, startSt, onTarget, patchEff,
      bind, Except.bind, Functor.map, Except.map, pure, Except.pure, Function.comp,
      freshClone, tdAfterRmGit, tdAfterInit, tdAfterManifest, tdAfterInstall,
      tdAfterNpx, tdAfterCss, tdAfterPatch, tdAfterScripts, tdAfterJs,
      tdAfterBuild, tdAfterAdd, tdAfterCommit, tdFinal,
      hnc, hpre, hf0, hf1, hf2, hf3, hf4, hf5, hf]

/-- Outcome when `patchConfig` is the first operation to fail. -/
lemma eval_fail_patchConfig (env : Env) (n : String)
    (hpre : env.preTarget = none)
    (hf0 : env.fails .clone = false)
    (hf1 : env.fails .removeGit = false)
    (hf2 : env.fails .gitInit = false)
    (hf3 : env.fails .ensureManifest = false)
    (hf4 : env.fails .npmInstall = false)
    (hf5 : env.fails .npxInit = false)
    (hf6 : env.fails .writeCss = false)
    (hf : env.fails .patchConfig = true) :
    runCli env n =
      { exitCode := 1,
        target := if env.cleanupFails = true then some (tdAfterCss env n) else none,
        finalCwd := env.origCwd,
        targetPath := env.origCwd ++ [n],
        trace := [.clone, .removeGit, .gitInit, .ensureManifest, .npmInstall, .npxInit, .writeCss, .patchConfig],
        errLogged := true,
        warned := false } := by
  cases hnc : env.npxCreatesConfig <;>
    simp [runCli, phase1, tryBody, cloneStep, stepRun, startSt, onTarget, patchEff,
      bind, Except.bind, Functor.map, Except.map, pure, Except.pure, Function.comp,
      freshClone, tdAfterRmGit, tdAfterInit, tdAfterManifest, tdAfterInstall,
      tdAfterNpx, tdAfterCss, tdAfterPatch, tdAfterScripts, tdAfterJs,
      tdAfterBuild, tdAfterAdd, tdAfterCommit, tdFinal,
      hnc, hpre, hf0, hf1, hf2, hf3, hf4, hf5, hf6, hf]

/-- Outcome when `updateScripts` is the first operation to fail. -/
lemma eval_fail_updateScripts (env : Env) (n : String)
    (hpre : env.preTarget = none)
    (hf0 : env.fails .clone = false)
    (hf1 : env.fails .removeGit = false)
    (hf2 : env.fails .gitInit = false)
    (hf3 : env.fails .ensureManifest = false)
    (hf4 : env.fails .npmInstall = false)
    (hf5 : env.fails .npxInit = false)
    (hf6 : env.fails .writeCss = false)
    (hf7 : env.fails .patchConfig = false)
    (hf : env.fails .updateScripts = true) :
    runCli env n =
      { exitCode := 1,
        target := if env.cleanupFails = true then some (tdAfterPatch env n) else none,
        finalCwd := env.origCwd,
        targetPath := env.origCwd ++ [n],
        trace := [.clone, .removeGit, .gitInit, .ensureManifest, .npmInstall, .npxInit, .writeCss, .patchConfig, .updateScripts],
        errLogged := true,
        warned := !env.npxCreatesConfig } := by
  cases hnc : env.npxCreatesConfig <;>
    simp [runCli, phase1, tryBody, cloneStep, stepRun, startSt, onTarget, patchEff,
      bind, Except.bind, Functor.map, Except.map, pure, Except.pure, Function.comp,
      freshClone, tdAfterRmGit, tdAfterInit, tdAfterManifest, tdAfterInstall,
      tdAfterNpx, tdAfterCss, tdAfterPatch, tdAfterScripts, tdAfterJs,
      tdAfterBuild, tdAfterAdd, tdAfterCommit, tdFinal,
      hnc, hpre, hf0, hf1, hf2, hf3, hf4, hf5, hf6, hf7, hf]

/-- Outcome when `writeJs` is the first operation to fail. -/
lemma eval_fail_writeJs (env : Env) (n : String)
    (hpre : env.preTarget = none)
    (hf0 : env.fails .clone = false)
    (hf1 : env.fails .removeGit = false)
    (hf2 : env.fails .gitInit = false)
    (hf3 : env.fails .ensureManifest = false)
    (hf4 : env.fails .npmInstall = false)
    (hf5 : env.fails .npxInit = false)
    (hf6 : env.fails .writeCss = false)
    (hf7 : env.fails .patchConfig = false)
    (hf8 : env.fails .updateScripts = false)
    (hf : env.fails .writeJs = true) :
    runCli env n =
      { exitCode := 1,
        target := if env.cleanupFails = true then some (tdAfterScripts env n) else none,
        finalCwd := env.origCwd,
        targetPath := env.origCwd ++ [n],
        trace := [.clone, .removeGit, .gitInit, .ensureManifest, .npmInstall, .npxInit, .writeCss, .patchConfig, .updateScripts, .writeJs],
        errLogged := true,
        warned := !env.npxCreatesConfig } := by
  cases hnc : env.npxCreatesConfig <;>
    simp [runCli, phase1, tryBody, cloneStep, stepRun, startSt, onTarget, patchEff,
      bind, Except.bind, Functor.map, Except.map, pure, Except.pure, Function.comp,
      freshClone, tdAfterRmGit, tdAfterInit, tdAfterManifest, tdAfterInstall,
      tdAfterNpx, tdAfterCss, tdAfterPatch, tdAfterScripts, tdAfterJs,
      tdAfterBuild, tdAfterAdd, tdAfterCommit, tdFinal,
      hnc, hpre, hf0, hf1, hf2, hf3, hf4, hf5, hf6, hf7, hf8, hf]

/-- Outcome when `runBuild` is the first operation to fail. -/
lemma eval_fail_runBuild (env : Env) (n : String)
    (hpre : env.preTarget = none)
    (hf0 : env.fails .clone = false)
    (hf1 : env.fails .removeGit = false)
    (hf2 : env.fails .gitInit = false)
    (hf3 : env.fails .ensureManifest = false)
    (hf4 : env.fails .npmInstall = false)
    (hf5 : env.fails .npxInit = false)
    (hf6 : env.fails .writeCss = false)
    (hf7 : env.fails .patchConfig = false)
    (hf8 : env.fails .updateScripts = false)
    (hf9 : env.fails .writeJs = false)
    (hf : env.fails .runBuild = true) :
    runCli env n =
      { exitCode := 1,
        target := if env.cleanupFails = true then some (tdAfterJs env n) else none,
        finalCwd := env.origCwd,
        targetPath := env.origCwd ++ [n],
        trace := [.clone, .removeGit, .gitInit, .ensureManifest, .npmInstall, .npxInit, .writeCss, .patchConfig, .updateScripts, .writeJs, .runBuild],
        errLogged := true,
        warned := !env.npxCreatesConfig } := by
  cases hnc : env.npxCreatesConfig <;>
    simp [runCli, phase1, tryBody, cloneStep, stepRun, startSt, onTarget, patchEff,
      bind, Except.bind, Functor.map, Except.map, pure, Except.pure, Function.comp,
      freshClone, tdAfterRmGit, tdAfterInit, tdAfterManifest, tdAfterInstall,
      tdAfterNpx, tdAfterCss, tdAfterPatch, tdAfterScripts, tdAfterJs,
      tdAfterBuild, tdAfterAdd, tdAfterCommit, tdFinal,
      hnc, hpre, hf0, hf1, hf2, hf3, hf4, hf5, hf6, hf7, hf8, hf9, hf]

/-- Outcome when `gitAdd` is the first operation to fail. -/
lemma eval_fail_gitAdd (env : Env) (n : String)
    (hpre : env.preTarget = none)
    (hf0 : env.fails .clone = false)
    (hf1 : env.fails .removeGit = false)
    (hf2 : env.fails .gitInit = false)
    (hf3 : env.fails .ensureManifest = false)
    (hf4 : env.fails .npmInstall = false)
    (hf5 : env.fails .npxInit = false)
    (hf6 : env.fails .writeCss = false)
    (hf7 : env.fails .patchConfig = false)
    (hf8 : env.fails .updateScripts = false)
    (hf9 : env.fails .writeJs = false)
    (hf10 : env.fails .runBuild = false)
    (hf : env.fails .gitAdd = true) :
    runCli env n =
      { exitCode := 1,
        target := if env.cleanupFails = true then some (tdAfterBuild env n) else none,
        finalCwd := env.origCwd,
        targetPath := env.origCwd ++ [n],
        trace := [.clone, .removeGit, .gitInit, .ensureManifest, .npmInstall, .npxInit, .writeCss, .patchConfig, .updateScripts, .writeJs, .runBuild, .gitAdd],
        errLogged := true,
        warned := !env.npxCreatesConfig } := by
  cases hnc : env.npxCreatesConfig <;>
    simp [runCli, phase1, tryBody, cloneStep, stepRun, startSt, onTarget, patchEff,
      bind, Except.bind, Functor.map, Except.map, pure, Except.pure, Function.comp,
      freshClone, tdAfterRmGit, tdAfterInit, tdAfterManifest, tdAfterInstall,
      tdAfterNpx, tdAfterCss, tdAfterPatch, tdAfterScripts, tdAfterJs,
      tdAfterBuild, tdAfterAdd, tdAfterCommit, tdFinal,
      hnc, hpre, hf0, hf1, hf2, hf3, hf4, hf5, hf6, hf7, hf8, hf9, hf10, hf]

/-- Outcome when `gitCommit` is the first operation to fail. -/
lemma eval_fail_gitCommit (env : Env) (n : String)
    (hpre : env.preTarget = none)
    (hf0 : env.fails .clone = false)
    (hf1 : env.fails .removeGit = false)
    (hf2 : env.fails .gitInit = false)
    (hf3 : env.fails .ensureManifest = false)
    (hf4 : env.fails .npmInstall = false)
    (hf5 : env.fails .npxInit = false)
    (hf6 : env.fails .writeCss = false)
    (hf7 : env.fails .patchConfig = false)
    (hf8 : env.fails .updateScripts = false)
    (hf9 : env.fails .writeJs = false)
    (hf10 : env.fails .runBuild = false)
    (hf11 : env.fails .gitAdd = false)
    (hf : env.fails .gitCommit = true) :
    runCli env n =
      { exitCode := 1,
        target := if env.cleanupFails = true then some (tdAfterAdd env n) else none,
        finalCwd := env.origCwd,
        targetPath := env.origCwd ++ [n],
        trace := [.clone, .removeGit, .gitInit, .ensureManifest, .npmInstall, .npxInit, .writeCss, .patchConfig, .updateScripts, .writeJs, .runBuild, .gitAdd, .gitCommit],
        errLogged := true,
        warned := !env.npxCreatesConfig } := by
  cases hnc : env.npxCreatesConfig <;>
    simp [runCli, phase1, tryBody, cloneStep, stepRun, startSt, onTarget, patchEff,
      bind, Except.bind, Functor.map, Except.map, pure, Except.pure, Function.comp,
      freshClone, tdAfterRmGit, tdAfterInit, tdAfterManifest, tdAfterInstall,
      tdAfterNpx, tdAfterCss, tdAfterPatch, tdAfterScripts, tdAfterJs,
      tdAfterBuild, tdAfterAdd, tdAfterCommit, tdFinal,
      hnc, hpre, hf0, hf1, hf2, hf3, hf4, hf5, hf6, hf7, hf8, hf9, hf10, hf11, hf]

/-- Outcome when `gitBranch` is the first operation to fail. -/
lemma eval_fail_gitBranch (env : Env) (n : String)
    (hpre : env.preTarget = none)
    (hf0 : env.fails .clone = false)
    (hf1 : env.fails .removeGit = false)
    (hf2 : env.fails .gitInit = false)
    (hf3 : env.fails .ensureManifest = false)
    (hf4 : env.fails .npmInstall = false)
    (hf5 : env.fails .npxInit = false)
    (hf6 : env.fails .writeCss = false)
    (hf7 : env.fails .patchConfig = false)
    (hf8 : env.fails .updateScripts = false)
    (hf9 : env.fails .writeJs = false)
    (hf10 : env.fails .runBuild = false)
    (hf11 : env.fails .gitAdd = false)
    (hf12 : env.fails .gitCommit = false)
    (hf : env.fails .gitBranch = true) :
    runCli env n =
      { exitCode := 1,
        target := if env.cleanupFails = true then some (tdAfterCommit env n) else none,
        finalCwd := env.origCwd,
        targetPath := env.origCwd ++ [n],
        trace := [.clone, .removeGit, .gitInit, .ensureManifest, .npmInstall, .npxInit, .writeCss, .patchConfig, .updateScripts, .writeJs, .runBuild, .gitAdd, .gitCommit, .gitBranch],
        errLogged := true,
        warned := !env.npxCreatesConfig } := by
  cases hnc : env.npxCreatesConfig <;>
    simp [runCli, phase1, tryBody, cloneStep, stepRun, startSt, onTarget, patchEff,
      bind, Except.bind, Functor.map, Except.map, pure, Except.pure, Function.comp,
      freshClone, tdAfterRmGit, tdAfterInit, tdAfterManifest, tdAfterInstall,
      tdAfterNpx, tdAfterCss, tdAfterPatch, tdAfterScripts, tdAfterJs,
      tdAfterBuild, tdAfterAdd, tdAfterCommit, tdFinal,
      hnc, hpre, hf0, hf1, hf2, hf3, hf4, hf5, hf6, hf7, hf8, hf9, hf10, hf11, hf12, hf]

/-- Outcome of a fully successful run. -/
lemma eval_allOk (env : Env) (n : String) (hf : ∀ op, env.fails op = false)
    (hpre : env.preTarget = none) :
    runCli env n =
      { exitCode := 0,
        target := some (tdFinal env n),
        finalCwd := env.origCwd,
        targetPath := env.origCwd ++ [n],
        trace := programTrace,
        errLogged := false,
        warned := !env.npxCreatesConfig } := by
  cases hnc : env.npxCreatesConfig <;>
    simp [runCli, phase1, tryBody, cloneStep, stepRun, startSt, onTarget, patchEff,
      bind, Except.bind, Functor.map, Except.map, pure, Except.pure, Function.comp,
      freshClone, tdAfterRmGit, tdAfterInit, tdAfterManifest, tdAfterInstall,
      tdAfterNpx, tdAfterCss, tdAfterPatch, tdAfterScripts, tdAfterJs,
      tdAfterBuild, tdAfterAdd, tdAfterCommit, tdFinal,
      hnc, hpre, hf, programTrace]

/-- Case analysis over where the first failure (if any) lies: facts every run
satisfies.  The third conjunct makes the trace's independence of the project
name available by comparing against a fixed name. -/
lemma runCli_master (env : Env) (n : String) :
    (runCli env n).finalCwd = env.origCwd ∧
    ((∃ op, env.fails op = true) → (runCli env n).exitCode = 1) ∧
    (runCli env n).trace = (runCli env "a").trace := by
  cases hp : env.preTarget with
  | some td =>
    rw [eval_preSome env n td hp, eval_preSome env "a" td hp]
    exact ⟨rfl, fun _ => rfl, rfl⟩
  | none =>
  by_cases h0 : env.fails .clone = true
  · rw [eval_fail_clone env n hp h0, eval_fail_clone env "a" hp h0]
    exact ⟨rfl, fun _ => rfl, rfl⟩
  simp only [Bool.not_eq_true] at h0
  by_cases h1 : env.fails .removeGit = true
  · rw [eval_fail_removeGit env n hp h0 h1, eval_fail_removeGit env "a" hp h0 h1]
    exact ⟨rfl, fun _ => rfl, rfl⟩
  simp only [Bool.not_eq_true] at h1
  by_cases h2 : env.fails .gitInit = true
  · rw [eval_fail_gitInit env n hp h0 h1 h2, eval_fail_gitInit env "a" hp h0 h1 h2]
    exact ⟨rfl, fun _ => rfl, rfl⟩
  simp only [Bool.not_eq_true] at h2
  by_cases h3 : env.fails .ensureManifest = true
  · rw [eval_fail_ensureManifest env n hp h0 h1 h2 h3,
      eval_fail_ensureManifest env "a" hp h0 h1 h2 h3]
    exact ⟨rfl, fun _ => rfl, rfl⟩
  simp only [Bool.not_eq_true] at h3
  by_cases h4 : env.fails .npmInstall = true
  · rw [eval_fail_npmInstall env n hp h0 h1 h2 h3 h4,
      eval_fail_npmInstall env "a" hp h0 h1 h2 h3 h4]
    exact ⟨rfl, fun _ => rfl, rfl⟩
  simp only [Bool.not_eq_true] at h4
  by_cases h5 : env.fails .npxInit = true
  · rw [eval_fail_npxInit env n hp h0 h1 h2 h3 h4 h5,
      eval_fail_npxInit env "a" hp h0 h1 h2 h3 h4 h5]
    exact ⟨rfl, fun _ => rfl, rfl⟩
  simp only [Bool.not_eq_true] at h5
  by_cases h6 : env.fails .writeCss = true
  · rw [eval_fail_writeCss env n hp h0 h1 h2 h3 h4 h5 h6,
      eval_fail_writeCss env "a" hp h0 h1 h2 h3 h4 h5 h6]
    exact ⟨rfl, fun _ => rfl, rfl⟩
  simp only [Bool.not_eq_true] at h6
  by_cases h7 : env.fails .patchConfig = true
  · rw [eval_fail_patchConfig env n hp h0 h1 h2 h3 h4 h5 h6 h7,
      eval_fail_patchConfig env "a" hp h0 h1 h2 h3 h4 h5 h6 h7]
    exact ⟨rfl, fun _ => rfl, rfl⟩
  simp only [Bool.not_eq_true] at h7
  by_cases h8 : env.fails .updateScripts = true
  · rw [eval_fail_updateScripts env n hp h0 h1 h2 h3 h4 h5 h6 h7 h8,
      eval_fail_updateScripts env "a" hp h0 h1 h2 h3 h4 h5 h6 h7 h8]
    exact ⟨rfl, fun _ => rfl, rfl⟩
  simp only [Bool.not_eq_true] at h8
  by_cases h9 : env.fails .writeJs = true
  · rw [eval_fail_writeJs env n hp h0 h1 h2 h3 h4 h5 h6 h7 h8 h9,
      eval_fail_writeJs env "a" hp h0 h1 h2 h3 h4 h5 h6 h7 h8 h9]
    exact ⟨rfl, fun _ => rfl, rfl⟩
  simp only [Bool.not_eq_true] at h9
  by_cases h10 : env.fails .runBuild = true
  · rw [eval_fail_runBuild env n hp h0 h1 h2 h3 h4 h5 h6 h7 h8 h9 h10,
      eval_fail_runBuild env "a" hp h0 h1 h2 h3 h4 h5 h6 h7 h8 h9 h10]
    exact ⟨rfl, fun _ => rfl, rfl⟩
  simp only [Bool.not_eq_true] at h10
  by_cases h11 : env.fails .gitAdd = true
  · rw [eval_fail_gitAdd env n hp h0 h1 h2 h3 h4 h5 h6 h7 h8 h9 h10 h11,
      eval_fail_gitAdd env "a" hp h0 h1 h2 h3 h4 h5 h6 h7 h8 h9 h10 h11]
    exact ⟨rfl, fun _ => rfl, rfl⟩
  simp only [Bool.not_eq_true] at h11
  by_cases h12 : env.fails .gitCommit = true
  · rw [eval_fail_gitCommit env n hp h0 h1 h2 h3 h4 h5 h6 h7 h8 h9 h10 h11 h12,
      eval_fail_gitCommit env "a" hp h0 h1 h2 h3 h4 h5 h6 h7 h8 h9 h10 h11 h12]
    exact ⟨rfl, fun _ => rfl, rfl⟩
  simp only [Bool.not_eq_true] at h12
  by_cases h13 : env.fails .gitBranch = true
  · rw [eval_fail_gitBranch env n hp h0 h1 h2 h3 h4 h5 h6 h7 h8 h9 h10 h11 h12 h13,
      eval_fail_gitBranch env "a" hp h0 h1 h2 h3 h4 h5 h6 h7 h8 h9 h10 h11 h12 h13]
    exact ⟨rfl, fun _ => rfl, rfl⟩
  simp only [Bool.not_eq_true] at h13
  have hall : ∀ op, env.fails op = false := by
    intro op
    cases op <;> assumption
  rw [eval_allOk env n hall hp, eval_allOk env "a" hall hp]
  refine ⟨rfl, ?_, rfl⟩
  rintro ⟨op, hop⟩
  rw [hall op] at hop
  cases hop

/-! ### Claims about the setup sequence -/

/-- C1, counterexample: when the `.git`-removal step (before the `try` block)
is the failing one, the process exits 1 but the target directory still
exists afterwards — the claimed deletion does not happen for failures of the
steps preceding the dependency install. -/
theorem c1_counterexample :
    (envFailAt Op.removeGit).fails Op.removeGit = true ∧
    (runCli (envFailAt Op.removeGit) "proj").exitCode = 1 ∧
    (runCli (envFailAt Op.removeGit) "proj").target.isSome = true := by
  decide

/-- C1, amended: when the first failing step is one of the steps inside the
`try` block (from the dependency install on, `4 ≤ opIdx op`) and the final
best-effort removal itself succeeds, the remaining steps are not executed
(the trace is cut at the failing step), the error is logged by the catch
block, the target directory is deleted, and the process exits with code 1.
For the four earlier steps the process still exits 1 (unhandled rejection)
but no cleanup and no catch logging happens. -/
theorem c1_theorem (env : Env) (n : String) (op : Op)
    (hpre : env.preTarget = none) (hclean : env.cleanupFails = false)
    (hidx : 4 ≤ opIdx op) (hop : env.fails op = true)
    (hbef : ∀ op', opIdx op' < opIdx op → env.fails op' = false) :
    (runCli env n).exitCode = 1 ∧ (runCli env n).target = none ∧
    (runCli env n).errLogged = true ∧
    (runCli env n).trace = programTrace.take (opIdx op + 1) := by
  cases op
  case clone => exact absurd hidx (by decide)
  case removeGit => exact absurd hidx (by decide)
  case gitInit => exact absurd hidx (by decide)
  case ensureManifest => exact absurd hidx (by decide)
  case npmInstall =>
    rw [eval_fail_npmInstall env n hpre (hbef Op.clone (by decide))
      (hbef Op.removeGit (by decide)) (hbef Op.gitInit (by decide))
      (hbef Op.ensureManifest (by decide)) hop]
    exact ⟨rfl, by simp [hclean], rfl, by simp [programTrace, opIdx]⟩
  case npxInit =>
    rw [eval_fail_npxInit env n hpre (hbef Op.clone (by decide))
      (hbef Op.removeGit (by decide)) (hbef Op.gitInit (by decide))
      (hbef Op.ensureManifest (by decide)) (hbef Op.npmInstall (by decide)) hop]
    exact ⟨rfl, by simp [hclean], rfl, by simp [programTrace, opIdx]⟩
  case writeCss =>
    rw [eval_fail_writeCss env n hpre (hbef Op.clone (by decide))
      (hbef Op.removeGit (by decide)) (hbef Op.gitInit (by decide))
      (hbef Op.ensureManifest (by decide)) (hbef Op.npmInstall (by decide))
      (hbef Op.npxInit (by decide)) hop]
    exact ⟨rfl, by simp [hclean], rfl, by simp [programTrace, opIdx]⟩
  case patchConfig =>
    rw [eval_fail_patchConfig env n hpre (hbef Op.clone (by decide))
      (hbef Op.removeGit (by decide)) (hbef Op.gitInit (by decide))
      (hbef Op.ensureManifest (by decide)) (hbef Op.npmInstall (by decide))
      (hbef Op.npxInit (by decide)) (hbef Op.writeCss (by decide)) hop]
    exact ⟨rfl, by simp [hclean], rfl, by simp [programTrace, opIdx]⟩
  case updateScripts =>
    rw [eval_fail_updateScripts env n hpre (hbef Op.clone (by decide))
      (hbef Op.removeGit (by decide)) (hbef Op.gitInit (by decide))
      (hbef Op.ensureManifest (by decide)) (hbef Op.npmInstall (by decide))
      (hbef Op.npxInit (by decide)) (hbef Op.writeCss (by decide))
      (hbef Op.patchConfig (by decide)) hop]
    exact ⟨rfl, by simp [hclean], rfl, by simp [programTrace, opIdx]⟩
  case writeJs =>
    rw [eval_fail_writeJs env n hpre (hbef Op.clone (by decide))
      (hbef Op.removeGit (by decide)) (hbef Op.gitInit (by decide))
      (hbef Op.ensureManifest (by decide)) (hbef Op.npmInstall (by decide))
      (hbef Op.npxInit (by decide)) (hbef Op.writeCss (by decide))
      (hbef Op.patchConfig (by decide)) (hbef Op.updateScripts (by decide)) hop]
    exact ⟨rfl, by simp [hclean], rfl, by simp [programTrace, opIdx]⟩
  case runBuild =>
    rw [eval_fail_runBuild env n hpre (hbef Op.clone (by decide))
      (hbef Op.removeGit (by decide)) (hbef Op.gitInit (by decide))
      (hbef Op.ensureManifest (by decide)) (hbef Op.npmInstall (by decide))
      (hbef Op.npxInit (by decide)) (hbef Op.writeCss (by decide))
      (hbef Op.patchConfig (by decide)) (hbef Op.updateScripts (by decide))
      (hbef Op.writeJs (by decide)) hop]
    exact ⟨rfl, by simp [hclean], rfl, by simp [programTrace, opIdx]⟩
  case gitAdd =>
    rw [eval_fail_gitAdd env n hpre (hbef Op.clone (by decide))
      (hbef Op.removeGit (by decide)) (hbef Op.gitInit (by decide))
      (hbef Op.ensureManifest (by decide)) (hbef Op.npmInstall (by decide))
      (hbef Op.npxInit (by decide)) (hbef Op.writeCss (by decide))
      (hbef Op.patchConfig (by decide)) (hbef Op.updateScripts (by decide))
      (hbef Op.writeJs (by decide)) (hbef Op.runBuild (by decide)) hop]
    exact ⟨rfl, by simp [hclean], rfl, by simp [programTrace, opIdx]⟩
  case gitCommit =>
    rw [eval_fail_gitCommit env n hpre (hbef Op.clone (by decide))
      (hbef Op.removeGit (by decide)) (hbef Op.gitInit (by decide))
      (hbef Op.ensureManifest (by decide)) (hbef Op.npmInstall (by decide))
      (hbef Op.npxInit (by decide)) (hbef Op.writeCss (by decide))
      (hbef Op.patchConfig (by decide)) (hbef Op.updateScripts (by decide))
      (hbef Op.writeJs (by decide)) (hbef Op.runBuild (by decide))
      (hbef Op.gitAdd (by decide)) hop]
    exact ⟨rfl, by simp [hclean], rfl, by simp [programTrace, opIdx]⟩
  case gitBranch =>
    rw [eval_fail_gitBranch env n hpre (hbef Op.clone (by decide))
      (hbef Op.removeGit (by decide)) (hbef Op.gitInit (by decide))
      (hbef Op.ensureManifest (by decide)) (hbef Op.npmInstall (by decide))
      (hbef Op.npxInit (by decide)) (hbef Op.writeCss (by decide))
      (hbef Op.patchConfig (by decide)) (hbef Op.updateScripts (by decide))
      (hbef Op.writeJs (by decide)) (hbef Op.runBuild (by decide))
      (hbef Op.gitAdd (by decide)) (hbef Op.gitCommit (by decide)) hop]
    exact ⟨rfl, by simp [hclean], rfl, by simp [programTrace, opIdx]⟩

/-- Witness for C1 at a concrete environment whose only failure is the
dependency install. -/
theorem c1_witness :
    (envFailAt Op.npmInstall).preTarget = none ∧
    (envFailAt Op.npmInstall).cleanupFails = false ∧
    4 ≤ opIdx Op.npmInstall ∧
    (envFailAt Op.npmInstall).fails Op.npmInstall = true ∧
    ((runCli (envFailAt Op.npmInstall) "proj").exitCode = 1 ∧
     (runCli (envFailAt Op.npmInstall) "proj").target = none ∧
     (runCli (envFailAt Op.npmInstall) "proj").errLogged = true ∧
     (runCli (envFailAt Op.npmInstall) "proj").trace =
       programTrace.take (opIdx Op.npmInstall + 1)) :=
  ⟨rfl, rfl, by decide, by decide,
    c1_theorem (envFailAt Op.npmInstall) "proj" Op.npmInstall rfl rfl
      (by decide) (by decide) (by decide)⟩

/-- C2: the exit code is 0 when every awaited step succeeds (and the target
path was free), and 1 whenever any awaited step fails — including the clone,
history-strip, re-init and manifest-creation steps that precede the
dependency install, whose rejections escape the `try` block but still
terminate the process with code 1 (Node's unhandled-rejection exit). -/
theorem c2_theorem :
    (∀ env n, allOk env → (runCli env n).exitCode = 0) ∧
    (∀ env n op, env.fails op = true → (runCli env n).exitCode = 1) := by
  constructor
  · rintro env n ⟨hf, hpre⟩
    rw [eval_allOk env n hf hpre]
  · intro env n op hop
    exact (runCli_master env n).2.1 ⟨op, hop⟩

/-- Witness for C2: a concrete all-success run exits 0; concrete runs whose
clone (pre-`try`) or build (in-`try`) step fails exit 1. -/
theorem c2_witness :
    (runCli envAllOk "proj").exitCode = 0 ∧
    (runCli (envFailAt Op.clone) "proj").exitCode = 1 ∧
    (runCli (envFailAt Op.runBuild) "proj").exitCode = 1 :=
  ⟨c2_theorem.1 envAllOk "proj" ⟨fun _ => rfl, rfl⟩,
   c2_theorem.2 (envFailAt Op.clone) "proj" Op.clone (by decide),
   c2_theorem.2 (envFailAt Op.runBuild) "proj" Op.runBuild (by decide)⟩

/-- C3: on every exit path — success, failure before the `chdir`, failure
after it — the working directory at process termination equals the working
directory at invocation. -/
theorem c3_theorem : ∀ env n, (runCli env n).finalCwd = env.origCwd :=
  fun env n => (runCli_master env n).1

/-- C4: with no flags the target is `cwd/my-rmv-project`; with `-n foo` or
`--name foo` it is `cwd/foo`; and the operation sequence performed does not
depend on the name. -/
theorem c4_theorem :
    parseName [] = "my-rmv-project" ∧
    (∀ v rest, parseName ("-n" :: v :: rest) = v) ∧
    (∀ v rest, parseName ("--name" :: v :: rest) = v) ∧
    (∀ env argv, (runCliArgv env argv).targetPath =
      env.origCwd ++ [parseName argv]) ∧
    (∀ env n₁ n₂, (runCli env n₁).trace = (runCli env n₂).trace) := by
  refine ⟨rfl, ?_, ?_, ?_, ?_⟩
  · intro v rest
    simp [parseName]
  · intro v rest
    simp [parseName]
  · intro env argv
    unfold runCliArgv runCli
    cases hph : phase1 env (parseName argv) (startSt env) with
    | error st => simp only [hph]
    | ok st =>
      cases htb : tryBody env st with
      | ok st' => simp only [hph, htb]
      | error st' => simp only [hph, htb]
  · intro env n1 n2
    exact (runCli_master env n1).2.2.trans (runCli_master env n2).2.2.symm

/-- C5: after a fully successful run the target holds a manifest whose
scripts map has the `build` and `watch` entries, and its `.git` is the
freshly initialized repository, not the template's. -/
theorem c5_theorem (env : Env) (n : String) (hf : ∀ op, env.fails op = false)
    (hpre : env.preTarget = none) :
    ∃ td, (runCli env n).target = some td ∧
      (∃ p, td.pkg = some p ∧ p.scripts "build" = some buildCmd ∧
        p.scripts "watch" = some watchCmd) ∧
      ∃ g, td.gitDir = some g ∧ g.fromTemplate = false ∧ g.committed = true := by
  rw [eval_allOk env n hf hpre]
  refine ⟨tdFinal env n, rfl,
    ⟨setScripts (env.templatePkg.getD (defaultPkg n)), rfl, ?_, ?_⟩,
    ⟨{ fromTemplate := false, staged := true, committed := true, branchMain := true },
      rfl, rfl, rfl⟩⟩
  · simp [setScripts]
  · simp [setScripts]

/-- Witness for C5 at a concrete all-success environment. -/
theorem c5_witness :
    ∃ td, (runCli envAllOk "proj").target = some td ∧
      (∃ p, td.pkg = some p ∧ p.scripts "build" = some buildCmd ∧
        p.scripts "watch" = some watchCmd) ∧
      ∃ g, td.gitDir = some g ∧ g.fromTemplate = false ∧ g.committed = true :=
  c5_theorem envAllOk "proj" (fun _ => rfl) rfl

/-- C7: a run at a path already holding the result of a fully successful
prior run fails at the clone step, leaves the existing directory's contents
exactly as they were, and exits 1. -/
theorem c7_theorem (env envPrev : Env) (n : String)
    (h : env.preTarget = some (tdFinal envPrev n)) :
    (runCli env n).exitCode = 1 ∧
    (runCli env n).target = some (tdFinal envPrev n) ∧
    (runCli env n).trace = [Op.clone] := by
  rw [eval_preSome env n (tdFinal envPrev n) h]
  exact ⟨rfl, rfl, rfl⟩

/-- Witness for C7 at a concrete occupied path. -/
theorem c7_witness :
    envPreOccupied.preTarget = some (tdFinal envAllOk "proj") ∧
    ((runCli envPreOccupied "proj").exitCode = 1 ∧
     (runCli envPreOccupied "proj").target = some (tdFinal envAllOk "proj") ∧
     (runCli envPreOccupied "proj").trace = [Op.clone]) :=
  ⟨rfl, c7_theorem envPreOccupied envAllOk "proj" rfl⟩

/-- C8, counterexample: on a concrete fully successful run the operation
trace is the program's order, in which `main.js` is written after the config
patch and the scripts update — not the claimed order with both generated
files written before the patch. -/
theorem c8_counterexample :
    (runCli envAllOk "proj").trace = programTrace ∧
    ¬ (runCli envAllOk "proj").trace = claimedTrace := by
  have h := eval_allOk envAllOk "proj" (fun _ => rfl) rfl
  rw [h]
  exact ⟨rfl, by decide⟩

/-- C8, amended: every fully successful run performs exactly the awaited
operations of `programTrace`, in that order (clone, strip history, re-init,
ensure manifest, install, CSS-tool init, write `processing.css`, patch the
config, record the scripts, write `main.js`, build, then stage, commit and
rename the branch), each completed before the next begins. -/
theorem c8_theorem : ∀ env n, allOk env → (runCli env n).trace = programTrace := by
  rintro env n ⟨hf, hpre⟩
  rw [eval_allOk env n hf hpre]

/-- Witness for C8 at a concrete all-success environment. -/
theorem c8_witness : (runCli envAllOk "proj").trace = programTrace :=
  c8_theorem envAllOk "proj" ⟨fun _ => rfl, rfl⟩

/-- C9: when the CSS tool's init step does not produce `tailwind.config.js`,
the run does not fail — the patch step only prints the warning, every
subsequent step still executes, and the process exits 0. -/
theorem c9_theorem (env : Env) (n : String) (hf : ∀ op, env.fails op = false)
    (hpre : env.preTarget = none) (hnc : env.npxCreatesConfig = false) :
    (runCli env n).exitCode = 0 ∧ (runCli env n).warned = true ∧
    (runCli env n).trace = programTrace ∧
    ∃ td, (runCli env n).target = some td ∧ td.twConfig = none ∧
      td.pkg = some (setScripts (env.templatePkg.getD (defaultPkg n))) ∧
      td.mainJs = some mainJsText ∧ td.builtCss = true ∧
      td.gitDir =
        some { fromTemplate := false, staged := true, committed := true, branchMain := true } := by
  rw [eval_allOk env n hf hpre]
  refine ⟨rfl, by simp [hnc], rfl, tdFinal env n, rfl, ?_, rfl, rfl, rfl, rfl⟩
  simp [tdFinal, tdAfterCommit, tdAfterAdd, tdAfterBuild, tdAfterJs,
    tdAfterScripts, tdAfterPatch, tdAfterCss, tdAfterNpx, tdAfterInstall,
    tdAfterManifest, tdAfterInit, tdAfterRmGit, freshClone, hnc]

/-- Witness for C9 at a concrete environment whose init creates no config. -/
theorem c9_witness :
    (runCli envNoCfg "proj").exitCode = 0 ∧ (runCli envNoCfg "proj").warned = true ∧
    (runCli envNoCfg "proj").trace = programTrace ∧
    ∃ td, (runCli envNoCfg "proj").target = some td ∧ td.twConfig = none ∧
      td.pkg = some (setScripts (envNoCfg.templatePkg.getD (defaultPkg "proj"))) ∧
      td.mainJs = some mainJsText ∧ td.builtCss = true ∧
      td.gitDir =
        some { fromTemplate := false, staged := true, committed := true, branchMain := true } :=
  c9_theorem envNoCfg "proj" (fun _ => rfl) rfl rfl

/-- C10: the scripts update keeps every non-`scripts` field and every script
entry other than `build`/`watch`, setting exactly those two; the default
manifest records the project name and version 1.0.0; and a template-provided
manifest is never replaced — the final manifest is the template's (resp. the
default one) with only the two scripts recorded. -/
theorem c10_theorem :
    (∀ p, (setScripts p).fields = p.fields) ∧
    (∀ p k, k ≠ "build" → k ≠ "watch" → (setScripts p).scripts k = p.scripts k) ∧
    (∀ p, (setScripts p).scripts "build" = some buildCmd ∧
      (setScripts p).scripts "watch" = some watchCmd) ∧
    (∀ n, (defaultPkg n).fields "name" = some n ∧
      (defaultPkg n).fields "version" = some "1.0.0") ∧
    (∀ env n p, allOk env → env.templatePkg = some p →
      ∃ td, (runCli env n).target = some td ∧ td.pkg = some (setScripts p)) ∧
    (∀ env n, allOk env → env.templatePkg = none →
      ∃ td, (runCli env n).target = some td ∧
        td.pkg = some (setScripts (defaultPkg n))) := by
  refine ⟨fun p => rfl, ?_, ?_, ?_, ?_, ?_⟩
  · intro p k hb hw
    simp [setScripts, hb, hw]
  · intro p
    constructor <;> simp [setScripts]
  · intro n
    constructor <;> simp [defaultPkg]
  · rintro env n p ⟨hf, hpre⟩ htp
    rw [eval_allOk env n hf hpre]
    exact ⟨tdFinal env n, rfl, by
      simp [tdFinal, tdAfterCommit, tdAfterAdd, tdAfterBuild, tdAfterJs,
        tdAfterScripts, htp]⟩
  · rintro env n ⟨hf, hpre⟩ htn
    rw [eval_allOk env n hf hpre]
    exact ⟨tdFinal env n, rfl, by
      simp [tdFinal, tdAfterCommit, tdAfterAdd, tdAfterBuild, tdAfterJs,
        tdAfterScripts, htn]⟩

/-- Witness for C10: frame facts at a concrete manifest and the run-level
facts at a concrete environment. -/
theorem c10_witness :
    (setScripts (defaultPkg "proj")).scripts "start" = (defaultPkg "proj").scripts "start" ∧
    (∃ td, (runCli envAllOk "proj").target = some td ∧
      td.pkg = some (setScripts (defaultPkg "proj"))) :=
  ⟨c10_theorem.2.1 (defaultPkg "proj") "start" (by decide) (by decide),
   c10_theorem.2.2.2.2.2 envAllOk "proj" ⟨fun _ => rfl, rfl⟩ rfl⟩

/-! ### Lemmas on the string machinery (towards claim C6) -/

lemma isPfx_iff {p s : List Char} : isPfx p s = true ↔ ∃ t, s = p ++ t := by
  induction p generalizing s with
  | nil => simp [isPfx]
  | cons a p ih =>
    cases s with
    | nil => simp [isPfx]
    | cons b s =>
      simp only [isPfx, Bool.and_eq_true, beq_iff_eq]
      constructor
      · rintro ⟨rfl, h⟩
        obtain ⟨t, rfl⟩ := ih.mp h
        exact ⟨t, rfl⟩
      · rintro ⟨t, ht⟩
        injection ht with h1 h2
        exact ⟨h1.symm, ih.mpr ⟨t, h2⟩⟩

lemma isPfx_append_self (p t : List Char) : isPfx p (p ++ t) = true :=
  isPfx_iff.mpr ⟨t, rfl⟩

lemma isPfx_length {p s : List Char} (h : isPfx p s = true) : p.length ≤ s.length := by
  obtain ⟨t, rfl⟩ := isPfx_iff.mp h
  simp

lemma isPfx_extend {p u : List Char} (y : List Char) (h : isPfx p u = true) :
    isPfx p (u ++ y) = true := by
  obtain ⟨t, rfl⟩ := isPfx_iff.mp h
  exact isPfx_iff.mpr ⟨t ++ y, by simp⟩

lemma isPfx_of_fit {p u y : List Char} (h : isPfx p (u ++ y) = true)
    (hl : p.length ≤ u.length) : isPfx p u = true := by
  induction p generalizing u with
  | nil => simp [isPfx]
  | cons a p ih =>
    cases u with
    | nil => simp at hl
    | cons b u =>
      simp only [List.cons_append, isPfx, Bool.and_eq_true, beq_iff_eq] at h ⊢
      exact ⟨h.1, ih h.2 (by simpa using hl)⟩

lemma isPfx_split {p u y : List Char} (h : isPfx p (u ++ y) = true)
    (hl : u.length < p.length) :
    u = p.take u.length ∧ isPfx (p.drop u.length) y = true := by
  induction u generalizing p with
  | nil => simpa using h
  | cons b u ih =>
    cases p with
    | nil => simp at hl
    | cons a p =>
      simp only [List.cons_append, isPfx, Bool.and_eq_true, beq_iff_eq] at h
      obtain ⟨rfl, h2⟩ := h
      obtain ⟨h3, h4⟩ := ih h2 (by simpa using hl)
      refine ⟨by simpa using h3, by simpa using h4⟩

lemma isPfx_false_of_long {p s : List Char} (h : s.length < p.length) :
    isPfx p s = false := by
  by_contra hc
  simp only [Bool.not_eq_false] at hc
  exact absurd (isPfx_length hc) (by omega)

lemma isPfx_append_fit {q R : List Char} (w : List Char) (h : q.length ≤ R.length) :
    isPfx q (R ++ w) = isPfx q R := by
  cases hq : isPfx q R with
  | true => exact isPfx_extend w hq
  | false =>
    by_contra hc
    simp only [Bool.not_eq_false] at hc
    rw [isPfx_of_fit hc h] at hq
    cases hq

lemma isSfx_iff {q s : List Char} : isSfx q s = true ↔ ∃ t, s = t ++ q := by
  unfold isSfx
  rw [isPfx_iff]
  constructor
  · rintro ⟨t, ht⟩
    refine ⟨t.reverse, ?_⟩
    have := congrArg List.reverse ht
    simpa using this
  · rintro ⟨t, rfl⟩
    exact ⟨t.reverse, by simp⟩

lemma isSfx_cons {q rest : List Char} (c : Char) (h : isSfx q rest = true) :
    isSfx q (c :: rest) = true := by
  obtain ⟨t, rfl⟩ := isSfx_iff.mp h
  exact isSfx_iff.mpr ⟨c :: t, rfl⟩

lemma isSfx_refl (s : List Char) : isSfx s s = true :=
  isSfx_iff.mpr ⟨[], rfl⟩

lemma stripPfx_some_iff {key s r : List Char} :
    stripPfx key s = some r ↔ s = key ++ r := by
  unfold stripPfx
  constructor
  · intro h
    split at h
    · rename_i hp
      injection h with h
      obtain ⟨t, rfl⟩ := isPfx_iff.mp hp
      simp at h
      rw [← h]
    · cases h
  · rintro rfl
    rw [if_pos (isPfx_append_self key r)]
    simp

lemma allWs_iff {w : List Char} : allWs w = true ↔ ∀ c ∈ w, isWs c = true := by
  simp [allWs, List.all_eq_true]

lemma dropWs_spec (s : List Char) :
    ∃ w, s = w ++ dropWs s ∧ allWs w = true := by
  unfold dropWs
  induction s with
  | nil => exact ⟨[], rfl, rfl⟩
  | cons c rest ih =>
    by_cases hc : isWs c = true
    · obtain ⟨w, hw, haw⟩ := ih
      refine ⟨c :: w, ?_, ?_⟩
      · rw [List.dropWhile_cons, if_pos hc]
        simpa using hw
      · rw [allWs_iff] at haw ⊢
        intro d hd
        rcases List.mem_cons.mp hd with rfl | hd
        · exact hc
        · exact haw d hd
    · refine ⟨[], ?_, rfl⟩
      rw [List.dropWhile_cons, if_neg (by simp [hc])]
      rfl

lemma dropWs_cons_neg {c : Char} {l : List Char} (h : isWs c = false) :
    dropWs (c :: l) = c :: l := by
  unfold dropWs
  rw [List.dropWhile_cons, if_neg (by simp [h])]

lemma dropWs_append_cons {u : List Char} {c : Char} {d : List Char}
    (h : dropWs u = c :: d) (x : List Char) : dropWs (u ++ x) = c :: (d ++ x) := by
  unfold dropWs at h ⊢
  induction u with
  | nil => simp at h
  | cons a u ih =>
    by_cases ha : isWs a = true
    · rw [List.dropWhile_cons, if_pos ha] at h
      rw [List.cons_append, List.dropWhile_cons, if_pos ha]
      exact ih h
    · rw [List.dropWhile_cons, if_neg (by simp [ha])] at h
      injection h with h1 h2
      subst h1
      subst h2
      rw [List.cons_append, List.dropWhile_cons, if_neg (by simp [ha])]

lemma dropWs_append_nil {u : List Char} (h : dropWs u = []) (x : List Char) :
    dropWs (u ++ x) = dropWs x := by
  unfold dropWs at h ⊢
  induction u with
  | nil => simp
  | cons a u ih =>
    by_cases ha : isWs a = true
    · rw [List.dropWhile_cons, if_pos ha] at h
      rw [List.cons_append, List.dropWhile_cons, if_pos ha]
      exact ih h
    · rw [List.dropWhile_cons, if_neg (by simp [ha])] at h
      cases h

lemma dropWs_allWs {w : List Char} (hw : allWs w = true) {c : Char}
    (hc : isWs c = false) (r : List Char) : dropWs (w ++ c :: r) = c :: r := by
  induction w with
  | nil => exact dropWs_cons_neg hc
  | cons a w ih =>
    rw [allWs_iff] at hw
    have ha : isWs a = true := hw a (List.mem_cons_self a w)
    have hw' : allWs w = true := allWs_iff.mpr fun d hd => hw d (List.mem_cons_of_mem a hd)
    unfold dropWs
    rw [List.cons_append, List.dropWhile_cons, if_pos ha]
    exact ih hw'

lemma stripPfx_none_iff {key s : List Char} :
    stripPfx key s = none ↔ isPfx key s = false := by
  unfold stripPfx
  split <;> simp_all

lemma isPfx_block {key u : List Char} {ch : Char} (hp : isPfx key u = false)
    (hch : ch ∉ key) (x : List Char) : isPfx key (u ++ ch :: x) = false := by
  induction key generalizing u with
  | nil => simp [isPfx] at hp
  | cons k ks ih =>
    cases u with
    | nil =>
      simp only [List.nil_append, isPfx]
      have hk : (k == ch) = false := by
        simp only [beq_eq_false_iff_ne]
        intro hk
        exact hch (hk ▸ List.mem_cons_self k ks)
      simp [hk]
    | cons b u =>
      simp only [List.cons_append, isPfx] at hp ⊢
      cases hkb : (k == b) with
      | false => simp [hkb]
      | true =>
        rw [hkb] at hp
        simp only [Bool.true_and] at hp ⊢
        exact ih hp (fun hm => hch (List.mem_cons_of_mem _ hm))

lemma tryMatch_cons_eq {k : Char} {ks : List Char} {c : Char} {rest : List Char}
    (h : k = c) : tryMatch (k :: ks) (c :: rest) = tryMatch ks rest := by
  subst h
  have hs : stripPfx (k :: ks) (k :: rest) = stripPfx ks rest := by
    unfold stripPfx
    simp [isPfx]
  unfold tryMatch
  rw [hs]

lemma tryMatch_first_mismatch {k : Char} {ks : List Char} {c : Char}
    {rest : List Char} (h : ¬ k = c) : tryMatch (k :: ks) (c :: rest) = none := by
  unfold tryMatch
  have hs : stripPfx (k :: ks) (c :: rest) = none := by
    rw [stripPfx_none_iff]
    simp [isPfx]
    intro hk
    exact absurd hk h
  rw [hs]

lemma tryMatch_build {key w1 w2 rem : List Char} (h1 : allWs w1 = true)
    (h2 : allWs w2 = true) : tryMatch key (mtch key w1 w2 ++ rem) = some rem := by
  unfold tryMatch
  have hsh : mtch key w1 w2 ++ rem = key ++ (w1 ++ '[' :: (w2 ++ ']' :: rem)) := by
    simp [mtch]
  have hs : stripPfx key (mtch key w1 w2 ++ rem) =
      some (w1 ++ '[' :: (w2 ++ ']' :: rem)) := stripPfx_some_iff.mpr hsh
  rw [hs]
  simp only []
  rw [dropWs_allWs h1 (by decide) _]
  simp only []
  rw [dropWs_allWs h2 (by decide) _]
  rfl

lemma tryMatch_shape {key s rem : List Char} (h : tryMatch key s = some rem) :
    ∃ w1 w2, s = mtch key w1 w2 ++ rem ∧ allWs w1 = true ∧ allWs w2 = true := by
  unfold tryMatch at h
  cases hsp : stripPfx key s with
  | none => rw [hsp] at h; cases h
  | some r1 =>
    rw [hsp] at h
    simp only [] at h
    have hs1 := stripPfx_some_iff.mp hsp
    split at h
    · rename_i r3 heq1
      split at h
      · rename_i r5 heq2
        injection h with h
        subst h
        obtain ⟨w1, hw1, haw1⟩ := dropWs_spec r1
        obtain ⟨w2, hw2, haw2⟩ := dropWs_spec r3
        rw [heq1] at hw1
        rw [heq2] at hw2
        refine ⟨w1, w2, ?_, haw1, haw2⟩
        rw [hs1, hw1, hw2]
        simp [mtch]
      · cases h
    · cases h

lemma tryMatch_append_some {key u r : List Char} (h : tryMatch key u = some r)
    (x : List Char) : tryMatch key (u ++ x) = some (r ++ x) := by
  obtain ⟨w1, w2, rfl, h1, h2⟩ := tryMatch_shape h
  have hb := @tryMatch_build key w1 w2 (r ++ x) h1 h2
  rw [List.append_assoc]
  exact hb

lemma tryMatch_none_block {key u : List Char} {ch : Char} (hb : BlockFor ch key)
    (h : tryMatch key u = none) (x : List Char) :
    tryMatch key (u ++ ch :: x) = none := by
  obtain ⟨hmem, hws, hlb, hrb⟩ := hb
  unfold tryMatch at h ⊢
  cases hsp : stripPfx key u with
  | none =>
    have hp : isPfx key u = false := stripPfx_none_iff.mp hsp
    have : stripPfx key (u ++ ch :: x) = none :=
      stripPfx_none_iff.mpr (isPfx_block hp hmem x)
    rw [this]
  | some r1 =>
    rw [hsp] at h
    simp only [] at h
    have hs1 := stripPfx_some_iff.mp hsp
    have hsp2 : stripPfx key (u ++ ch :: x) = some (r1 ++ ch :: x) :=
      stripPfx_some_iff.mpr (by rw [hs1]; simp)
    rw [hsp2]
    simp only []
    cases hw : dropWs r1 with
    | nil =>
      rw [dropWs_append_nil hw (ch :: x), dropWs_cons_neg hws]
      split
      · rename_i r3 heq
        injection heq with heq1 _
        exact absurd heq1 hlb
      · rfl
    | cons c3 r3 =>
      rw [hw] at h
      rw [dropWs_append_cons hw (ch :: x)]
      by_cases hc3 : c3 = '['
      · subst hc3
        simp only [List.cons_append] at h ⊢
        cases hw2 : dropWs r3 with
        | nil =>
          rw [dropWs_append_nil hw2 (ch :: x), dropWs_cons_neg hws]
          split
          · rename_i r5 heq
            injection heq with heq1 _
            exact absurd heq1 hrb
          · rfl
        | cons c5 r5 =>
          rw [hw2] at h
          by_cases hc5 : c5 = ']'
          · subst hc5
            simp at h
          · rw [dropWs_append_cons hw2 (ch :: x)]
            split
            · rename_i r5' heq
              injection heq with heq1 _
              exact absurd heq1 hc5
            · rfl
      · split
        · rename_i r3' heq
          injection heq with heq1 _
          exact absurd heq1 hc3
        · rfl

lemma wsDead_sound {v : List Char} (h : wsDead v = true) (w : List Char) :
    tryMatch [] (v ++ w) = none := by
  unfold tryMatch
  have hsp : stripPfx [] (v ++ w) = some (v ++ w) := stripPfx_some_iff.mpr (by simp)
  rw [hsp]
  simp only []
  unfold wsDead at h
  cases hw : dropWs v with
  | nil => rw [hw] at h; cases h
  | cons c3 r3 =>
    rw [hw] at h
    rw [dropWs_append_cons hw w]
    by_cases hc3 : c3 = '['
    · subst hc3
      simp only [] at h ⊢
      cases hw2 : dropWs r3 with
      | nil => rw [hw2] at h; cases h
      | cons c5 r5 =>
        rw [hw2] at h
        by_cases hc5 : c5 = ']'
        · subst hc5
          simp at h
        · rw [dropWs_append_cons hw2 w]
          split
          · rename_i r5' heq
            injection heq with heq1 _
            exact absurd heq1 hc5
          · rfl
    · split
      · rename_i r3' heq
        injection heq with heq1 _
        exact absurd heq1 hc3
      · rfl

lemma deadAt_sound {key v : List Char} (h : deadAt key v = true) (w : List Char) :
    tryMatch key (v ++ w) = none := by
  induction key generalizing v with
  | nil =>
    unfold deadAt at h
    exact wsDead_sound h w
  | cons k ks ih =>
    cases v with
    | nil => unfold deadAt at h; cases h
    | cons c v' =>
      unfold deadAt at h
      by_cases hkc : (k == c) = true
      · rw [if_pos hkc] at h
        have hk : k = c := by simpa using hkc
        rw [List.cons_append, tryMatch_cons_eq hk]
        exact ih h
      · have hk : ¬ k = c := by simpa using hkc
        rw [List.cons_append]
        exact tryMatch_first_mismatch hk

lemma deadTails_spec {key R : List Char} (h : deadTails key R = true) :
    ∀ v, v <:+ R → v ≠ [] → ∀ w, tryMatch key (v ++ w) = none := by
  intro v hv hne w
  obtain ⟨t, rfl⟩ := hv
  have hvd : (t ++ v).drop t.length = v := by simp
  have hlt : t.length < (t ++ v).length := by
    have : 0 < v.length := List.length_pos.mpr hne
    simp [List.length_append]
    omega
  unfold deadTails at h
  rw [List.all_eq_true] at h
  have hda := h t.length (List.mem_range.mpr hlt)
  rw [hvd] at hda
  exact deadAt_sound (by simpa using hda) w

lemma tryMatch_swap {key u : List Char} {ch : Char} (hb : BlockFor ch key)
    (x y : List Char) :
    (tryMatch key (u ++ ch :: x) = none ↔ tryMatch key (u ++ ch :: y) = none) := by
  cases h : tryMatch key u with
  | some r =>
    rw [tryMatch_append_some h (ch :: x), tryMatch_append_some h (ch :: y)]
    simp
  | none =>
    rw [tryMatch_none_block hb h x, tryMatch_none_block hb h y]

lemma tryMatch_nil (key : List Char) : tryMatch key [] = none := by
  cases key <;> rfl

lemma mtch_ne_nil (key w1 w2 : List Char) : mtch key w1 w2 ≠ [] := by
  simp [mtch]

lemma replaceAllGo_skip (key repl : List Char) :
    ∀ x y : List Char,
      replaceAllGo key repl x.length (x ++ y) = replaceAllGo key repl 0 y := by
  intro x
  induction x with
  | nil => intro y; rfl
  | cons a x ih => intro y; exact ih y

lemma countMatchesGo_skip (key : List Char) :
    ∀ x y : List Char,
      countMatchesGo key x.length (x ++ y) = countMatchesGo key 0 y := by
  intro x
  induction x with
  | nil => intro y; rfl
  | cons a x ih => intro y; exact ih y

lemma replaceAll_nil (key repl : List Char) : replaceAll key repl [] = [] := rfl

lemma replaceAll_some {key repl s rem : List Char} (hne : s ≠ [])
    (h : tryMatch key s = some rem) :
    replaceAll key repl s = repl ++ replaceAll key repl rem := by
  cases s with
  | nil => exact absurd rfl hne
  | cons c rest =>
    obtain ⟨w1, w2, hshape, _, _⟩ := tryMatch_shape h
    cases hM : mtch key w1 w2 with
    | nil => exact absurd hM (mtch_ne_nil key w1 w2)
    | cons m0 mt =>
      rw [hM] at hshape
      simp only [List.cons_append] at hshape
      injection hshape with hc hrest
      show replaceAllGo key repl 0 (c :: rest) = repl ++ replaceAllGo key repl 0 rem
      conv_lhs => rw [replaceAllGo]
      rw [h]
      simp only []
      congr 1
      rw [hrest, show (mt ++ rem).length - rem.length = mt.length from by
        simp [List.length_append]]
      exact replaceAllGo_skip key repl mt rem

lemma replaceAll_none {key repl : List Char} {c : Char} {rest : List Char}
    (h : tryMatch key (c :: rest) = none) :
    replaceAll key repl (c :: rest) = c :: replaceAll key repl rest := by
  show replaceAllGo key repl 0 (c :: rest) = c :: replaceAllGo key repl 0 rest
  conv_lhs => rw [replaceAllGo]
  rw [h]

lemma countMatches_nil (key : List Char) : countMatches key [] = 0 := rfl

lemma countMatches_some {key s rem : List Char} (hne : s ≠ [])
    (h : tryMatch key s = some rem) :
    countMatches key s = 1 + countMatches key rem := by
  cases s with
  | nil => exact absurd rfl hne
  | cons c rest =>
    obtain ⟨w1, w2, hshape, _, _⟩ := tryMatch_shape h
    cases hM : mtch key w1 w2 with
    | nil => exact absurd hM (mtch_ne_nil key w1 w2)
    | cons m0 mt =>
      rw [hM] at hshape
      simp only [List.cons_append] at hshape
      injection hshape with hc hrest
      show countMatchesGo key 0 (c :: rest) = 1 + countMatchesGo key 0 rem
      conv_lhs => rw [countMatchesGo]
      rw [h]
      simp only []
      congr 1
      rw [hrest, show (mt ++ rem).length - rem.length = mt.length from by
        simp [List.length_append]]
      exact countMatchesGo_skip key mt rem

lemma countMatches_none {key : List Char} {c : Char} {rest : List Char}
    (h : tryMatch key (c :: rest) = none) :
    countMatches key (c :: rest) = countMatches key rest := by
  show countMatchesGo key 0 (c :: rest) = countMatchesGo key 0 rest
  conv_lhs => rw [countMatchesGo]
  rw [h]

lemma suffix_append_split {v a b : List Char} (h : v <:+ a ++ b) :
    v <:+ b ∨ ∃ va, va <:+ a ∧ va ≠ [] ∧ v = va ++ b := by
  induction a with
  | nil => exact Or.inl (by simpa using h)
  | cons c a ih =>
    rw [List.cons_append, List.suffix_cons_iff] at h
    rcases h with rfl | h
    · exact Or.inr ⟨c :: a, List.suffix_refl _, by simp, rfl⟩
    · rcases ih h with hb | ⟨va, hva, hne, rfl⟩
      · exact Or.inl hb
      · exact Or.inr ⟨va, hva.trans (List.suffix_cons c a), hne, rfl⟩

lemma suffix_append_congr {v x : List Char} (w : List Char) (h : v <:+ x) :
    v ++ w <:+ x ++ w := by
  obtain ⟨t, rfl⟩ := h
  exact ⟨t, by simp⟩

lemma noMatchIn_suffix {key u v : List Char} (h : noMatchIn key u) (hv : v <:+ u) :
    noMatchIn key v := fun v' hv' => h v' (hv'.trans hv)

lemma countMatches_zero_iff {key u : List Char} :
    countMatches key u = 0 ↔ noMatchIn key u := by
  induction u with
  | nil =>
    simp only [countMatches_nil, true_iff]
    intro v hv
    rw [List.suffix_nil.mp hv]
    exact tryMatch_nil key
  | cons c rest ih =>
    constructor
    · intro h
      cases hm : tryMatch key (c :: rest) with
      | some rem =>
        rw [countMatches_some (by simp) hm] at h
        omega
      | none =>
        rw [countMatches_none hm] at h
        intro v hv
        rcases List.suffix_cons_iff.mp hv with rfl | hv
        · exact hm
        · exact (ih.mp h) v hv
    · intro h
      have hm : tryMatch key (c :: rest) = none := h (c :: rest) (List.suffix_refl _)
      rw [countMatches_none hm]
      exact ih.mpr (noMatchIn_suffix h (List.suffix_cons c rest))

lemma noMatchIn_replaceAll {key repl u : List Char} (h : noMatchIn key u) :
    replaceAll key repl u = u := by
  induction u with
  | nil => exact replaceAll_nil key repl
  | cons c rest ih =>
    have hm : tryMatch key (c :: rest) = none := h (c :: rest) (List.suffix_refl _)
    rw [replaceAll_none hm, ih (noMatchIn_suffix h (List.suffix_cons c rest))]

lemma noScanHit_tail {key t : List Char} {c : Char} {a : List Char}
    (h : noScanHit key t (c :: a)) : noScanHit key t a :=
  fun v hv hne => h v (hv.trans (List.suffix_cons c a)) hne

lemma noScanHit_replace {key repl t a : List Char} (h : noScanHit key t a) :
    replaceAll key repl (a ++ t) = a ++ replaceAll key repl t := by
  induction a with
  | nil => rfl
  | cons c a ih =>
    have hm : tryMatch key ((c :: a) ++ t) = none :=
      h (c :: a) (List.suffix_refl _) (by simp)
    rw [List.cons_append] at hm
    rw [List.cons_append, replaceAll_none hm, ih (noScanHit_tail h)]
    rfl

lemma firstMatch_decomp {key s : List Char} (h : countMatches key s = 1) :
    ∃ a t rem, s = a ++ t ∧ noScanHit key t a ∧ tryMatch key t = some rem ∧
      countMatches key rem = 0 := by
  induction s with
  | nil =>
    rw [countMatches_nil] at h
    cases h
  | cons c rest ih =>
    cases hm : tryMatch key (c :: rest) with
    | some rem =>
      rw [countMatches_some (by simp) hm] at h
      refine ⟨[], c :: rest, rem, rfl, ?_, hm, by omega⟩
      intro v hv hne
      rw [List.suffix_nil.mp hv] at hne
      exact absurd rfl hne
    | none =>
      rw [countMatches_none hm] at h
      obtain ⟨a, t, rem, heq, hsc, htm, hcnt⟩ := ih h
      refine ⟨c :: a, t, rem, by rw [heq]; rfl, ?_, htm, hcnt⟩
      intro v hv hne
      rcases List.suffix_cons_iff.mp hv with rfl | hv
      · rw [List.cons_append, ← heq]
        exact hm
      · exact hsc v hv hne

lemma countOcc_cons {p : List Char} {c : Char} {rest : List Char} :
    countOcc p (c :: rest) = (if isPfx p (c :: rest) then 1 else 0) + countOcc p rest :=
  rfl

lemma countOcc_le_append_left {p x : List Char} (w : List Char) :
    countOcc p x ≤ countOcc p (x ++ w) := by
  induction x with
  | nil => simp [countOcc]
  | cons c rest ih =>
    rw [List.cons_append]
    rw [@countOcc_cons p c rest, @countOcc_cons p c (rest ++ w)]
    by_cases hc : isPfx p (c :: rest) = true
    · have hc2 : isPfx p (c :: (rest ++ w)) = true := by
        rw [← List.cons_append]
        exact isPfx_extend w hc
      rw [if_pos hc, if_pos hc2]
      omega
    · rw [if_neg hc]
      have h2 : (0 : Nat) ≤ if isPfx p (c :: (rest ++ w)) then 1 else 0 := by omega
      omega

lemma countOcc_le_append_right {p w : List Char} (x : List Char) :
    countOcc p w ≤ countOcc p (x ++ w) := by
  induction x with
  | nil => simp
  | cons c rest ih =>
    rw [List.cons_append]
    rw [@countOcc_cons p c (rest ++ w)]
    omega

lemma countOcc_infix_zero {p s x : List Char} (hs : countOcc p s = 0)
    (h : ∃ u v, s = u ++ x ++ v) : countOcc p x = 0 := by
  obtain ⟨u, v, rfl⟩ := h
  have h1 : countOcc p (x ++ v) ≤ countOcc p (u ++ (x ++ v)) :=
    countOcc_le_append_right u
  have h2 : countOcc p x ≤ countOcc p (x ++ v) := countOcc_le_append_left v
  rw [List.append_assoc] at hs
  omega

lemma countOcc_append_zero_left {p x w : List Char}
    (hx : countOcc p x = 0)
    (hw : ∀ j, 0 < j → j < p.length → isPfx (p.drop j) w = false) :
    countOcc p (x ++ w) = countOcc p w := by
  induction x with
  | nil => rfl
  | cons c rest ih =>
    rw [@countOcc_cons p c rest] at hx
    have hhead : isPfx p (c :: rest) = false := by
      cases hh : isPfx p (c :: rest)
      · rfl
      · rw [hh] at hx; simp at hx
    have hrest : countOcc p rest = 0 := by
      rw [hhead] at hx; simpa using hx
    rw [List.cons_append]
    rw [@countOcc_cons p c (rest ++ w)]
    have hhead2 : isPfx p (c :: (rest ++ w)) = false := by
      cases hh : isPfx p (c :: (rest ++ w))
      · rfl
      · exfalso
        rw [← List.cons_append] at hh
        by_cases hl : p.length ≤ (c :: rest).length
        · rw [isPfx_of_fit hh hl] at hhead
          cases hhead
        · push_neg at hl
          obtain ⟨_, hsp⟩ := isPfx_split hh hl
          have := hw (c :: rest).length (by simp) hl
          rw [this] at hsp
          cases hsp
    rw [hhead2]
    simpa using ih hrest

lemma countOcc_append_block {p R w : List Char} (hp : p ≠ [])
    (hs : ∀ j, 0 < j → j < p.length → isSfx (p.take j) R = false) :
    countOcc p (R ++ w) = countOcc p R + countOcc p w := by
  induction R with
  | nil => simp [countOcc]
  | cons c rest ih =>
    have hs' : ∀ j, 0 < j → j < p.length → isSfx (p.take j) rest = false := by
      intro j hj hjl
      cases hh : isSfx (p.take j) rest
      · rfl
      · have hup := isSfx_cons c hh
        rw [hs j hj hjl] at hup
        cases hup
    have hhead : isPfx p (c :: (rest ++ w)) = isPfx p (c :: rest) := by
      rw [← List.cons_append]
      by_cases hl : p.length ≤ (c :: rest).length
      · exact isPfx_append_fit w hl
      · push_neg at hl
        rw [isPfx_false_of_long hl]
        cases hh : isPfx p (c :: rest ++ w)
        · rfl
        · exfalso
          obtain ⟨htk, _⟩ := isPfx_split hh hl
          have hcond := hs (c :: rest).length (by simp) hl
          rw [← htk] at hcond
          rw [isSfx_refl] at hcond
          cases hcond
    rw [List.cons_append]
    rw [@countOcc_cons p c (rest ++ w), @countOcc_cons p c rest]
    rw [hhead, ih hs']
    omega

lemma noTailPfxIn_spec {p R : List Char} (h : noTailPfxIn p R = true) :
    ∀ j, 0 < j → j < p.length → isPfx (p.drop j) R = false := by
  intro j hj hjl
  unfold noTailPfxIn at h
  rw [List.all_eq_true] at h
  have hcond := h j (List.mem_range.mpr hjl)
  simp only [Bool.or_eq_true, decide_eq_true_eq, Bool.not_eq_true'] at hcond
  rcases hcond with h0 | hf
  · omega
  · exact hf

lemma noHeadSfxIn_spec {p R : List Char} (h : noHeadSfxIn p R = true) :
    ∀ j, 0 < j → j < p.length → isSfx (p.take j) R = false := by
  intro j hj hjl
  unfold noHeadSfxIn at h
  rw [List.all_eq_true] at h
  have hcond := h j (List.mem_range.mpr hjl)
  simp only [Bool.or_eq_true, decide_eq_true_eq, Bool.not_eq_true'] at hcond
  rcases hcond with h0 | hf
  · omega
  · exact hf

lemma count_five {p x y z R1 R2 : List Char} (hp : p ≠ [])
    (hx : countOcc p x = 0) (hy : countOcc p y = 0) (hz : countOcc p z = 0)
    (hl1 : p.length ≤ R1.length + 1) (hl2 : p.length ≤ R2.length + 1)
    (d1 : noTailPfxIn p R1 = true) (s1 : noHeadSfxIn p R1 = true)
    (d2 : noTailPfxIn p R2 = true) (s2 : noHeadSfxIn p R2 = true) :
    countOcc p (x ++ R1 ++ y ++ R2 ++ z) = countOcc p R1 + countOcc p R2 := by
  have hdropLen : ∀ j, 0 < j → (p.drop j).length ≤ p.length - 1 := by
    intro j hj
    simp only [List.length_drop]
    omega
  simp only [List.append_assoc]
  rw [countOcc_append_zero_left hx]
  · rw [countOcc_append_block hp (noHeadSfxIn_spec s1)]
    rw [countOcc_append_zero_left hy]
    · rw [countOcc_append_block hp (noHeadSfxIn_spec s2)]
      omega
    · intro j hj hjl
      rw [isPfx_append_fit z (by have := hdropLen j hj; omega)]
      exact noTailPfxIn_spec d2 j hj hjl
  · intro j hj hjl
    rw [isPfx_append_fit (y ++ (R2 ++ z)) (by have := hdropLen j hj; omega)]
    exact noTailPfxIn_spec d1 j hj hjl

lemma not_mem_mtch {ch : Char} {key w1 w2 : List Char} (hb : BlockFor ch key)
    (h1 : allWs w1 = true) (h2 : allWs w2 = true) : ch ∉ mtch key w1 w2 := by
  obtain ⟨hmem, hws, hlb, hrb⟩ := hb
  unfold mtch
  intro hm
  rcases List.mem_append.mp hm with hm' | hm'
  · rcases List.mem_append.mp hm' with hm'' | hm''
    · exact hmem hm''
    · rw [allWs_iff] at h1
      rw [h1 ch hm''] at hws
      cases hws
  · rcases List.mem_cons.mp hm' with rfl | hm''
    · exact hlb rfl
    · rcases List.mem_append.mp hm'' with hm3 | hm3
      · rw [allWs_iff] at h2
        rw [h2 ch hm3] at hws
        cases hws
      · rcases List.mem_cons.mp hm3 with rfl | hm4
        · exact hrb rfl
        · cases hm4

lemma split_at_second {A r1 d B r2 : List Char} {hb : Char} {Bt : List Char}
    (h : A ++ r1 = d ++ (B ++ r2)) (hB : B = hb :: Bt) (hA : hb ∉ A) :
    ∃ e, d = A ++ e ∧ r1 = e ++ (B ++ r2) := by
  rcases List.append_eq_append_iff.mp h with ⟨e, hd, hr⟩ | ⟨e, hd, hr⟩
  · exact ⟨e, hd, hr⟩
  · cases e with
    | nil =>
      have hdA : d = A := by simpa using hd.symm
      have hr1 : r1 = B ++ r2 := by simpa using hr.symm
      exact ⟨[], by simp [hdA], by simp [hr1]⟩
    | cons c cs =>
      exfalso
      rw [hB] at hr
      simp only [List.cons_append] at hr
      injection hr with hc _
      apply hA
      rw [hd, ← hc]
      exact List.mem_append.mpr (Or.inr (List.mem_cons_self _ _))

lemma tryMatch_ne_nil {key s rem : List Char} (h : tryMatch key s = some rem) :
    s ≠ [] := by
  intro hnil
  rw [hnil, tryMatch_nil] at h
  cases h

lemma key1_head : key1 = 'c' :: "ontent:".toList := rfl

lemma key2_head : key2 = 'p' :: "lugins:".toList := rfl

lemma contentRepl_head :
    contentRepl =
      'c' :: "ontent: [\n    './site/**/*.php',\n    './site/**/*.js',\n    './content/**/*.txt'\n  ]".toList :=
  rfl

lemma mtch_key1_cons (w1 w2 : List Char) :
    mtch key1 w1 w2 = 'c' :: ("ontent:".toList ++ (w1 ++ '[' :: (w2 ++ [']']))) := by
  simp only [mtch, key1_head, List.cons_append, List.append_assoc]

lemma mtch_key2_cons (v1 v2 : List Char) :
    mtch key2 v1 v2 = 'p' :: ("lugins:".toList ++ (v1 ++ '[' :: (v2 ++ [']']))) := by
  simp only [mtch, key2_head, List.cons_append, List.append_assoc]

lemma tryMatch_swap3 {key u1 u2 u3 : List Char} {ch : Char} (hb : BlockFor ch key)
    (x y : List Char) :
    (tryMatch key (u1 ++ (u2 ++ (u3 ++ ch :: x))) = none ↔
     tryMatch key (u1 ++ (u2 ++ (u3 ++ ch :: y))) = none) := by
  rw [show u1 ++ (u2 ++ (u3 ++ ch :: x)) = ((u1 ++ u2) ++ u3) ++ ch :: x by
        simp [List.append_assoc],
      show u1 ++ (u2 ++ (u3 ++ ch :: y)) = ((u1 ++ u2) ++ u3) ++ ch :: y by
        simp [List.append_assoc]]
  exact tryMatch_swap hb x y

lemma blockFor_p_key1 : BlockFor 'p' key1 := by
  unfold BlockFor
  exact ⟨by decide, by decide, by decide, by decide⟩

lemma blockFor_c_key2 : BlockFor 'c' key2 := by
  unfold BlockFor
  exact ⟨by decide, by decide, by decide, by decide⟩

/-- The double-match decomposition: a text with exactly one `content: []`
placeholder and exactly one `plugins: []` placeholder splits into five parts
around the two matches (in either order), and the two `replace` passes
substitute exactly the two replacement texts. -/
lemma patch_decomp {s : List Char}
    (h1 : countMatches key1 s = 1) (h2 : countMatches key2 s = 1) :
    ∃ x y z w1 w2 v1 v2,
      allWs w1 = true ∧ allWs w2 = true ∧ allWs v1 = true ∧ allWs v2 = true ∧
      ((s = x ++ (mtch key1 w1 w2 ++ (y ++ (mtch key2 v1 v2 ++ z))) ∧
        patchTailwind s = x ++ (contentRepl ++ (y ++ (pluginsRepl ++ z)))) ∨
       (s = x ++ (mtch key2 v1 v2 ++ (y ++ (mtch key1 w1 w2 ++ z))) ∧
        patchTailwind s = x ++ (pluginsRepl ++ (y ++ (contentRepl ++ z))))) := by
  obtain ⟨a1, t1, r1, hs1, hsc1, htm1, hc1⟩ := firstMatch_decomp h1
  obtain ⟨w1, w2, ht1, haw1, haw2⟩ := tryMatch_shape htm1
  obtain ⟨a2, t2, r2, hs2, hsc2, htm2, hc2⟩ := firstMatch_decomp h2
  obtain ⟨v1, v2, ht2, hav1, hav2⟩ := tryMatch_shape htm2
  have hnm1 : noMatchIn key1 r1 := countMatches_zero_iff.mp hc1
  have hnm2 : noMatchIn key2 r2 := countMatches_zero_iff.mp hc2
  have hP1 : replaceAll key1 contentRepl s = a1 ++ (contentRepl ++ r1) := by
    rw [hs1, noScanHit_replace hsc1,
      replaceAll_some (tryMatch_ne_nil htm1) htm1, noMatchIn_replaceAll hnm1]
  have hEq : a1 ++ (mtch key1 w1 w2 ++ r1) = a2 ++ (mtch key2 v1 v2 ++ r2) := by
    rw [← ht1, ← ht2, ← hs1, ← hs2]
  rcases List.append_eq_append_iff.mp hEq with ⟨d, hd, hr⟩ | ⟨d, hd, hr⟩
  · -- the content match comes first
    obtain ⟨e, hde, hre⟩ := split_at_second hr (mtch_key2_cons v1 v2)
      (not_mem_mtch blockFor_p_key1 haw1 haw2)
    rw [ht2] at hsc2
    rw [hd, hde] at hsc2
    refine ⟨a1, e, r2, w1, w2, v1, v2, haw1, haw2, hav1, hav2, Or.inl ⟨?_, ?_⟩⟩
    · rw [hs1, ht1, hre]
    · unfold patchTailwind
      rw [hP1, hre]
      have htmB : tryMatch key2 (mtch key2 v1 v2 ++ r2) = some r2 :=
        tryMatch_build hav1 hav2
      have hscA : noScanHit key2 (mtch key2 v1 v2 ++ r2)
          (a1 ++ (contentRepl ++ e)) := by
        intro v hv hne
        rcases suffix_append_split hv with hv1 | ⟨va, hva, hvane, rfl⟩
        · rcases suffix_append_split hv1 with hv2 | ⟨vc, hvc, hvcne, rfl⟩
          · exact hsc2 v
              (hv2.trans ((List.suffix_append (mtch key1 w1 w2) e).trans
                (List.suffix_append a1 _))) hne
          · have hdt := deadTails_spec
              (show deadTails key2 contentRepl = true from by decide) vc hvc hvcne
              (e ++ (mtch key2 v1 v2 ++ r2))
            rw [List.append_assoc]
            exact hdt
        · have hfact := hsc2 (va ++ (mtch key1 w1 w2 ++ e))
            (suffix_append_congr _ hva) (by simp [hvane])
          rw [mtch_key1_cons] at hfact
          rw [contentRepl_head]
          simp only [List.append_assoc, List.cons_append] at hfact ⊢
          exact (tryMatch_swap blockFor_c_key2 _ _).mp hfact
      have hstep := @noScanHit_replace key2 pluginsRepl _ _ hscA
      rw [replaceAll_some (tryMatch_ne_nil htmB) htmB,
        noMatchIn_replaceAll hnm2] at hstep
      calc replaceAll key2 pluginsRepl
            (a1 ++ (contentRepl ++ (e ++ (mtch key2 v1 v2 ++ r2))))
          = replaceAll key2 pluginsRepl
            ((a1 ++ (contentRepl ++ e)) ++ (mtch key2 v1 v2 ++ r2)) := by
            simp only [List.append_assoc]
        _ = (a1 ++ (contentRepl ++ e)) ++ (pluginsRepl ++ r2) := hstep
        _ = a1 ++ (contentRepl ++ (e ++ (pluginsRepl ++ r2))) := by
            simp only [List.append_assoc]
  · -- the plugins match comes first
    obtain ⟨e, hde, hre⟩ := split_at_second hr (mtch_key1_cons w1 w2)
      (not_mem_mtch blockFor_c_key2 hav1 hav2)
    rw [ht2] at hsc2
    refine ⟨a2, e, r1, w1, w2, v1, v2, haw1, haw2, hav1, hav2, Or.inr ⟨?_, ?_⟩⟩
    · rw [hs2, ht2, hre]
    · unfold patchTailwind
      rw [hP1, hd, hde]
      have htmB : tryMatch key2 (mtch key2 v1 v2 ++ (e ++ (contentRepl ++ r1))) =
          some (e ++ (contentRepl ++ r1)) := tryMatch_build hav1 hav2
      have hscB : noScanHit key2 (mtch key2 v1 v2 ++ (e ++ (contentRepl ++ r1))) a2 := by
        intro v hv hne
        have hfact := hsc2 v hv hne
        rw [hre] at hfact
        rw [mtch_key1_cons] at hfact
        rw [contentRepl_head]
        simp only [List.append_assoc, List.cons_append] at hfact ⊢
        exact (tryMatch_swap3 blockFor_c_key2 _ _).mp hfact
      have hnmB : noMatchIn key2 (e ++ (contentRepl ++ r1)) := by
        intro v hv
        rcases suffix_append_split hv with hv1 | ⟨ve, hve, hvene, rfl⟩
        · rcases suffix_append_split hv1 with hv2 | ⟨vc, hvc, hvcne, rfl⟩
          · refine hnm2 v ?_
            rw [hre]
            exact hv2.trans ((List.suffix_append (mtch key1 w1 w2) r1).trans
              (List.suffix_append e _))
          · exact deadTails_spec
              (show deadTails key2 contentRepl = true from by decide) vc hvc hvcne r1
        · have hfact := hnm2 (ve ++ (mtch key1 w1 w2 ++ r1))
            (by rw [hre]; exact suffix_append_congr _ hve)
          rw [mtch_key1_cons] at hfact
          rw [contentRepl_head]
          simp only [List.append_assoc, List.cons_append] at hfact ⊢
          exact (tryMatch_swap blockFor_c_key2 _ _).mp hfact
      have hstep := @noScanHit_replace key2 pluginsRepl _ _ hscB
      rw [replaceAll_some (tryMatch_ne_nil htmB) htmB,
        noMatchIn_replaceAll hnmB] at hstep
      calc replaceAll key2 pluginsRepl
            ((a2 ++ (mtch key2 v1 v2 ++ e)) ++ (contentRepl ++ r1))
          = replaceAll key2 pluginsRepl
            (a2 ++ (mtch key2 v1 v2 ++ (e ++ (contentRepl ++ r1)))) := by
            simp only [List.append_assoc]
        _ = a2 ++ (pluginsRepl ++ (e ++ (contentRepl ++ r1))) := hstep

set_option maxRecDepth 4000 in
/-- C6, counterexample: an initial text with exactly one `content: []`
placeholder and one `plugins: []` placeholder that already contains the
first content glob elsewhere; after patching that glob occurs twice, not
exactly once as claimed. -/
theorem c6_counterexample :
    countMatches key1 ("content: [] plugins: [] ".toList ++ glob1) = 1 ∧
    countMatches key2 ("content: [] plugins: [] ".toList ++ glob1) = 1 ∧
    ¬ countOcc glob1 (patchTailwind ("content: [] plugins: [] ".toList ++ glob1)) = 1 := by
  refine ⟨by decide, by decide, by decide⟩

/-- C6, amended: for every initial `tailwind.config.js` text containing
exactly one match of `content:\s*\[\s*\]` and exactly one match of
`plugins:\s*\[\s*\]`, and containing no occurrence of the three content
globs or of the typography plugin registration, the patched file contains
each of the three content-glob entries and the typography plugin
registration exactly once. -/
theorem c6_theorem (s : List Char)
    (h1 : countMatches key1 s = 1) (h2 : countMatches key2 s = 1)
    (hg1 : countOcc glob1 s = 0) (hg2 : countOcc glob2 s = 0)
    (hg3 : countOcc glob3 s = 0) (htr : countOcc typoReq s = 0) :
    countOcc glob1 (patchTailwind s) = 1 ∧ countOcc glob2 (patchTailwind s) = 1 ∧
    countOcc glob3 (patchTailwind s) = 1 ∧ countOcc typoReq (patchTailwind s) = 1 := by
  obtain ⟨x, y, z, w1, w2, v1, v2, haw1, haw2, hav1, hav2, hcase⟩ := patch_decomp h1 h2
  have main : ∀ p : List Char, p ≠ [] → countOcc p s = 0 →
      p.length ≤ contentRepl.length + 1 → p.length ≤ pluginsRepl.length + 1 →
      noTailPfxIn p contentRepl = true → noHeadSfxIn p contentRepl = true →
      noTailPfxIn p pluginsRepl = true → noHeadSfxIn p pluginsRepl = true →
      countOcc p (patchTailwind s) =
        countOcc p contentRepl + countOcc p pluginsRepl := by
    intro p hpne hp0 hl1 hl2 d1 s1 d2 s2
    rcases hcase with ⟨hs, hp⟩ | ⟨hs, hp⟩
    · have hx0 : countOcc p x = 0 := countOcc_infix_zero hp0
        ⟨[], mtch key1 w1 w2 ++ (y ++ (mtch key2 v1 v2 ++ z)), by
          rw [hs]; simp [List.append_assoc]⟩
      have hy0 : countOcc p y = 0 := countOcc_infix_zero hp0
        ⟨x ++ mtch key1 w1 w2, mtch key2 v1 v2 ++ z, by
          rw [hs]; simp [List.append_assoc]⟩
      have hz0 : countOcc p z = 0 := countOcc_infix_zero hp0
        ⟨x ++ mtch key1 w1 w2 ++ y ++ mtch key2 v1 v2, [], by
          rw [hs]; simp [List.append_assoc]⟩
      rw [hp, show x ++ (contentRepl ++ (y ++ (pluginsRepl ++ z))) =
        x ++ contentRepl ++ y ++ pluginsRepl ++ z from by simp [List.append_assoc]]
      exact count_five hpne hx0 hy0 hz0 hl1 hl2 d1 s1 d2 s2
    · have hx0 : countOcc p x = 0 := countOcc_infix_zero hp0
        ⟨[], mtch key2 v1 v2 ++ (y ++ (mtch key1 w1 w2 ++ z)), by
          rw [hs]; simp [List.append_assoc]⟩
      have hy0 : countOcc p y = 0 := countOcc_infix_zero hp0
        ⟨x ++ mtch key2 v1 v2, mtch key1 w1 w2 ++ z, by
          rw [hs]; simp [List.append_assoc]⟩
      have hz0 : countOcc p z = 0 := countOcc_infix_zero hp0
        ⟨x ++ mtch key2 v1 v2 ++ y ++ mtch key1 w1 w2, [], by
          rw [hs]; simp [List.append_assoc]⟩
      rw [hp, show x ++ (pluginsRepl ++ (y ++ (contentRepl ++ z))) =
        x ++ pluginsRepl ++ y ++ contentRepl ++ z from by simp [List.append_assoc]]
      rw [count_five hpne hx0 hy0 hz0 hl2 hl1 d2 s2 d1 s1]
      omega
  refine ⟨?_, ?_, ?_, ?_⟩
  · rw [main glob1 (by decide) hg1 (by decide) (by decide) (by decide) (by decide)
      (by decide) (by decide)]
    decide
  · rw [main glob2 (by decide) hg2 (by decide) (by decide) (by decide) (by decide)
      (by decide) (by decide)]
    decide
  · rw [main glob3 (by decide) hg3 (by decide) (by decide) (by decide) (by decide)
      (by decide) (by decide)]
    decide
  · rw [main typoReq (by decide) htr (by decide) (by decide) (by decide) (by decide)
      (by decide) (by decide)]
    decide

/-- Witness for C6 at the canonical initial configuration text. -/
theorem c6_witness :
    countMatches key1 "content: []\nplugins: []".toList = 1 ∧
    countMatches key2 "content: []\nplugins: []".toList = 1 ∧
    countOcc glob1 "content: []\nplugins: []".toList = 0 ∧
    (countOcc glob1 (patchTailwind "content: []\nplugins: []".toList) = 1 ∧
     countOcc glob2 (patchTailwind "content: []\nplugins: []".toList) = 1 ∧
     countOcc glob3 (patchTailwind "content: []\nplugins: []".toList) = 1 ∧
     countOcc typoReq (patchTailwind "content: []\nplugins: []".toList) = 1) :=
  ⟨by decide, by decide, by decide,
    c6_theorem "content: []\nplugins: []".toList (by decide) (by decide)
      (by decide) (by decide) (by decide) (by decide)⟩
